import Mathlib

/-!
Verification development for the WebReg2Cal schedule parser and calendar
event synthesizer (src/scripts/scheduleParser.js, src/scripts/googleCalendar.js).

Strings are modelled as `List Char` (JS strings over the inputs concerned are
ASCII plus a few fixed Unicode characters; JS `length` = char count on these).
All definitions are shallow embeddings of the JavaScript source; JS `null` /
`undefined` returns are modelled with `Option`, and JS object field mutation
with functional record update.
-/

/-- Convert a Lean string literal to the `List Char` representation used
throughout this development. -/
def str (s : String) : List Char := s.data

/-- JS whitespace class `\s` (the characters that can occur in this
application's inputs; NBSP included since raw input may carry it). -/
def isSpaceJS (c : Char) : Bool :=
  c == ' ' || c == '\t' || c == '\n' || c == '\r' || c == '\x0b' || c == '\x0c' || c == '\u00A0'

def isDigitCh (c : Char) : Bool := 48 ≤ c.toNat && c.toNat ≤ 57

def isUpperAZ (c : Char) : Bool := 65 ≤ c.toNat && c.toNat ≤ 90

def isLowerAZ (c : Char) : Bool := 97 ≤ c.toNat && c.toNat ≤ 122

def isLetterAZ (c : Char) : Bool := isUpperAZ c || isLowerAZ c

/-- Regex word character `\w` = `[A-Za-z0-9_]`. -/
def isWordCh (c : Char) : Bool := isLetterAZ c || isDigitCh c || c == '_'

/-- ASCII lowercasing, as JS `toLowerCase` acts on the characters in play. -/
def toLowerCh (c : Char) : Char :=
  if 65 ≤ c.toNat && c.toNat ≤ 90 then Char.ofNat (c.toNat + 32) else c

/-- ASCII uppercasing, as JS `toUpperCase` acts on the characters in play. -/
def toUpperCh (c : Char) : Char :=
  if 97 ≤ c.toNat && c.toNat ≤ 122 then Char.ofNat (c.toNat - 32) else c

def toLowerJS (l : List Char) : List Char := l.map toLowerCh

def toUpperJS (l : List Char) : List Char := l.map toUpperCh

/-- JS `String.prototype.trim`. -/
def jsTrim (l : List Char) : List Char :=
  ((l.dropWhile isSpaceJS).reverse.dropWhile isSpaceJS).reverse

/-- Does `l` start with `pat` (case-sensitive)? -/
def lstartsWith : List Char → List Char → Bool
  | [], _ => true
  | _ :: _, [] => false
  | p :: ps, c :: cs => p == c && lstartsWith ps cs

/-- Does `l` start with `pat`, comparing case-insensitively (regex `i` flag)? -/
def lstartsWithCI : List Char → List Char → Bool
  | [], _ => true
  | _ :: _, [] => false
  | p :: ps, c :: cs => toLowerCh p == toLowerCh c && lstartsWithCI ps cs

/-- JS `String.prototype.includes` (contiguous substring occurrence). -/
def substrIn (pat : List Char) : List Char → Bool
  | [] => pat == []
  | c :: cs => lstartsWith pat (c :: cs) || substrIn pat cs

/-- JS `String.prototype.split('<sep>')` on a single separator character. -/
def splitOnChar (sep : Char) : List Char → List (List Char)
  | [] => [[]]
  | c :: cs =>
    let r := splitOnChar sep cs
    if c == sep then [] :: r
    else
      match r with
      | h :: t => (c :: h) :: t
      | [] => [[c]]

/-- JS `split(/\r?\n/)`. A lone `\r` is not a separator. -/
def splitLinesJS : List Char → List (List Char)
  | [] => [[]]
  | '\r' :: '\n' :: cs => [] :: splitLinesJS cs
  | '\n' :: cs => [] :: splitLinesJS cs
  | c :: cs =>
    match splitLinesJS cs with
    | h :: t => (c :: h) :: t
    | [] => [[c]]

/-- Replace every occurrence of character `a` by `b` (JS `replace(/a/g, 'b')`). -/
def replaceCharJS (a b : Char) (l : List Char) : List Char :=
  l.map (fun c => if c == a then b else c)

/-- Keep the first occurrence of each element (JS `[...new Set(xs)]`). -/
def dedupFirst : List (List Char) → List (List Char)
  | [] => []
  | x :: xs => x :: (dedupFirst xs).filter (fun y => ¬ (y == x))

/-!
## CourseEvent (src/scripts/scheduleParser.js, class CourseEvent)
-/

structure CourseEvent where
  courseCode : List Char := []
  courseTitle : List Char := []
  sessionType : List Char := []
  sectionCode : List Char := []
  instructor : List Char := []
  days : List Char := []
  startTime : List Char := []
  endTime : List Char := []
  location : List Char := []
  building : List Char := []
  room : List Char := []
  finalDate : List Char := []
  finalDay : List Char := []
  quarter : List Char := []
  year : List Char := []
  units : List Char := []
  deriving Repr, DecidableEq

/-- `CourseEvent.getNormalizedSessionType`. -/
def getNormalizedSessionType (e : CourseEvent) : List Char :=
  let type := toLowerJS e.sessionType
  if substrIn (str "final") type || type == str "fi" then str "Final Exam"
  else if substrIn (str "midterm") type || type == str "mi" then str "Midterm"
  else if substrIn (str "lec") type || type == str "le" then str "Lecture"
  else if substrIn (str "dis") type || type == str "di" then str "Discussion"
  else if substrIn (str "lab") type || type == str "la" then str "Lab"
  else if e.sessionType ≠ [] then e.sessionType else str "Lecture"

/-- `CourseEvent.getEventTitle`. -/
def getEventTitle (e : CourseEvent) : List Char :=
  e.courseCode ++ str " - " ++ getNormalizedSessionType e

/-- `CourseEvent.getEventDescription`: joins the labeled lines with a raw
newline character; the source comments "(will be escaped later)". -/
def getEventDescription (e : CourseEvent) : List Char :=
  let lines : List (List Char) :=
    [str "Course: " ++ e.courseCode ++
      (if e.courseTitle ≠ [] then str " - " ++ e.courseTitle else [])] ++
    (if e.sectionCode ≠ [] then [str "Section: " ++ e.sectionCode] else []) ++
    (if e.instructor ≠ [] then [str "Instructor: " ++ e.instructor] else []) ++
    (if e.location ≠ [] then [str "Location: " ++ e.location] else []) ++
    (if e.quarter ≠ [] && e.year ≠ [] then
      [str "Quarter: " ++ e.quarter ++ str " " ++ e.year] else []) ++
    [[], str "📚 Created by Getting It Done"]
  (lines.intersperse (str "\n")).flatten

/-!
## Day-token normalizer (ScheduleParser.correctOCRDays / normalizeDays)
-/

/-- Trailing OCR artifact set of `correctOCRDays`: `/[lI1|]$/`. -/
def isArtifactCh (c : Char) : Bool := c == 'l' || c == 'I' || c == '1' || c == '|'

/-- `ScheduleParser.correctOCRDays`: `E`→`F`, `e`→`f`, then strip one trailing
artifact character (`replace(/[lI1|]$/g, '')` removes exactly the last char
when it is in the set). -/
def correctOCRDays (l : List Char) : List Char :=
  let corrected := replaceCharJS 'e' 'f' (replaceCharJS 'E' 'F' l)
  match corrected.getLast? with
  | some c => if isArtifactCh c then corrected.dropLast else corrected
  | none => corrected

/-- The `dayMappings` table restricted to its two-letter keys. -/
def twoCharDay (c d : Char) : Option (List Char) :=
  if c == 't' && d == 'u' then some (str "Tu")
  else if c == 't' && d == 'h' then some (str "Th")
  else if c == 's' && d == 'a' then some (str "Sa")
  else if c == 's' && d == 'u' then some (str "Su")
  else none

/-- The `dayMappings` table restricted to its one-letter keys (`m`,`w`,`f`);
an unrecognized character contributes nothing (the source loop skips it). -/
def oneCharDay (c : Char) : List Char :=
  if c == 'm' then str "M"
  else if c == 'w' then str "W"
  else if c == 'f' then str "F"
  else []

/-- The rebuild loop of `normalizeDays` (two-letter day codes consumed before
one-letter codes). -/
def normalizeDaysRebuild : List Char → List Char
  | [] => []
  | [c] => oneCharDay c
  | c :: d :: rest =>
    match twoCharDay c d with
    | some t => t ++ normalizeDaysRebuild rest
    | none => oneCharDay c ++ normalizeDaysRebuild (d :: rest)

/-- The `combinationMappings` lookup of `normalizeDays`. -/
def combLookup (l : List Char) : Option (List Char) :=
  if l == str "mwf" then some (str "MWF")
  else if l == str "mw" then some (str "MW")
  else if l == str "tuth" then some (str "TuTh")
  else if l == str "tth" then some (str "TuTh")
  else if l == str "wf" then some (str "WF")
  else if l == str "mf" then some (str "MF")
  else if l == str "mwth" then some (str "MWTh")
  else if l == str "twth" then some (str "TuWTh")
  else if l == str "mtwthf" then some (str "MTuWThF")
  else if l == str "mtuthf" then some (str "MTuThF")
  else none

/-- Whitespace removal step of `normalizeDays` (`replace(/\s+/g, '')`). -/
def removeSpacesJS (l : List Char) : List Char := l.filter (fun c => ¬ isSpaceJS c)

/-- Lowercased, OCR-corrected, space-stripped form used for the lookups inside
`ScheduleParser.normalizeDays`. -/
def lowerOf (s : List Char) : List Char :=
  toLowerJS (correctOCRDays (removeSpacesJS s))

/-- `ScheduleParser.normalizeDays`. -/
def normalizeDays (s : List Char) : List Char :=
  if s = [] then []
  else
    match combLookup (lowerOf s) with
    | some v => v
    | none =>
      let result := normalizeDaysRebuild (lowerOf s)
      if result = [] then s else result

/-!
## Regex embeddings for the field recognizers

Each function embeds one JavaScript regular-expression test from
scheduleParser.js, compiled to explicit character scanning with the same
backtracking behaviour.
-/

/-- `[ap]` under the `i` flag. -/
def isApCI (c : Char) : Bool := toLowerCh c == 'a' || toLowerCh c == 'p'

/-- `[ap]` with no flag (case-sensitive). -/
def isApCS (c : Char) : Bool := c == 'a' || c == 'p'

/-- Consume `\d{1,2}:\d{2}[ap]` at the start of `l` (greedy two digits first,
backtracking to one), returning the remainder; `ap` selects the meridiem
character class. -/
def consumeTimeComp (ap : Char → Bool) : List Char → Option (List Char)
  | a :: rest1 =>
    if isDigitCh a then
      match rest1 with
      | b :: ':' :: m1 :: m2 :: p :: rest2 =>
        if isDigitCh b && isDigitCh m1 && isDigitCh m2 && ap p then some rest2
        else
          match rest1 with
          | ':' :: n1 :: n2 :: q :: rest3 =>
            if isDigitCh n1 && isDigitCh n2 && ap q then some rest3 else none
          | _ => none
      | ':' :: n1 :: n2 :: q :: rest3 =>
        if isDigitCh n1 && isDigitCh n2 && ap q then some rest3 else none
      | _ => none
    else none
  | [] => none

/-- Match `/\d{1,2}:\d{2}[ap]-?\d{1,2}:\d{2}[ap]/i` at the start of `l`
(the test used on candidate time-range fields). -/
def timeRangeAt (l : List Char) : Bool :=
  match consumeTimeComp isApCI l with
  | some rest =>
    (match rest with
     | '-' :: r => (consumeTimeComp isApCI r).isSome
     | r => (consumeTimeComp isApCI r).isSome)
  | none => false

/-- `.test` of `/\d{1,2}:\d{2}[ap]-?\d{1,2}:\d{2}[ap]/i` (existence anywhere). -/
def timeRangeTest : List Char → Bool
  | [] => false
  | c :: cs => timeRangeAt (c :: cs) || timeRangeTest cs

/-- `.test` of `/\d{1,2}:\d{2}[ap]/` (case-sensitive; used by
`isOrphanInstructorLine`). -/
def timePatTest : List Char → Bool
  | [] => false
  | c :: cs => (consumeTimeComp isApCS (c :: cs)).isSome || timePatTest cs

/-- One step of a word-boundary alternation test: does some alternative match
at the current position with `\b` on both sides?  `prev` is the character
before the current position (`none` at the start of the string). -/
def existsWordAlt (ci : Bool) (alts : List (List Char)) : Option Char → List Char → Bool
  | _, [] => false
  | prev, c :: cs =>
    (alts.any fun alt =>
      (if ci then lstartsWithCI alt (c :: cs) else lstartsWith alt (c :: cs)) &&
      (match prev with | none => true | some p => ¬ isWordCh p) &&
      (match (c :: cs).drop alt.length with
       | [] => true
       | r :: _ => ¬ isWordCh r))
    || existsWordAlt ci alts (some c) cs

/-- `.test` of `/\b(MWF|TuTh|MW|M|Tu|W|Th|F|Sa|Su)\b/i`. -/
def hasDayPatternTest (l : List Char) : Bool :=
  existsWordAlt true
    [str "MWF", str "TuTh", str "MW", str "M", str "Tu", str "W", str "Th",
     str "F", str "Sa", str "Su"] none l

/-- Consume exactly `k` characters satisfying `p`, returning the rest. -/
def takeExact (p : Char → Bool) : Nat → List Char → Option (List Char)
  | 0, l => some l
  | _ + 1, [] => none
  | k + 1, c :: cs => if p c then takeExact p k cs else none

/-- `.test` of `/^[A-Z]{2,4}\s*\d{1,3}[A-Z]?/` (prefix only, case-sensitive);
greedy letter counts 4, 3, 2 with backtracking. -/
def hasCourseCodePre (l : List Char) : Bool :=
  [4, 3, 2].any fun k =>
    match takeExact isUpperAZ k l with
    | some rest =>
      (match rest.dropWhile isSpaceJS with
       | d :: _ => isDigitCh d
       | [] => false)
    | none => false

/-- `.test` of `/^[A-Z]\d{2}/` (prefix only, case-sensitive). -/
def hasSectionCodePre : List Char → Bool
  | a :: b :: c :: _ => isUpperAZ a && isDigitCh b && isDigitCh c
  | _ => false

/-- `ScheduleParser.isOrphanInstructorLine`. -/
def isOrphanInstructorLine (line : List Char) : Bool :=
  let hasTimePattern := timePatTest line
  let hasDayPattern := hasDayPatternTest line
  let hasCourseCode := hasCourseCodePre line
  let hasSectionCode := hasSectionCodePre line
  if ¬ hasTimePattern && ¬ hasDayPattern && ¬ hasCourseCode && ¬ hasSectionCode then
    substrIn (str ",") line ||
      (line.length < 30 && line ≠ [] && line.all fun c => isLetterAZ c || isSpaceJS c)
  else false

/-- `ScheduleParser.isHeaderLine`'s keyword list. -/
def headerKeywords : List (List Char) :=
  [str "subject", str "course", str "title", str "section", str "code",
   str "type", str "instructor", str "grade", str "option", str "units",
   str "days", str "time", str "bldg", str "room", str "status",
   str "action", str "position", str "calendar", str "finals",
   str "print schedule", str "book list"]

/-- `ScheduleParser.isHeaderLine`. -/
def isHeaderLine (line : List Char) : Bool :=
  let lowerLine := toLowerJS line
  2 ≤ (headerKeywords.filter fun kw => substrIn kw lowerLine).length

/-- `ScheduleParser.isCourseCodeStart`: full match of
`/^[A-Z]{2,4}\s*\d{1,3}[A-Z]?$/i` on the trimmed field. -/
def isCourseCodeStart (field : List Char) : Bool :=
  let t := jsTrim field
  [4, 3, 2].any fun k =>
    match takeExact isLetterAZ k t with
    | some rest =>
      let r2 := rest.dropWhile isSpaceJS
      [3, 2, 1].any fun j =>
        match takeExact isDigitCh j r2 with
        | some r3 =>
          (match r3 with
           | [] => true
           | [c] => isLetterAZ c
           | _ => false)
        | none => false
    | none => false

/-- `ScheduleParser.isSectionCodeStart`: O→0 cleaning then
`/^[A-Z][0-9]{2}$/i`. -/
def isSectionCodeStart (field : List Char) : Bool :=
  let cleaned := replaceCharJS 'o' '0' (replaceCharJS 'O' '0' (jsTrim field))
  match cleaned with
  | [a, b, c] => isLetterAZ a && isDigitCh b && isDigitCh c
  | _ => false

/-- `ScheduleParser.isMidtermLine`: `/midterm/i` or `/\bMI\b/`
(the second test is case-sensitive). -/
def isMidtermLine (line : List Char) : Bool :=
  substrIn (str "midterm") (toLowerJS line) || existsWordAlt false [str "MI"] none line

/-- `.test` of `/final\s*exam/i`. -/
def finalExamTest : List Char → Bool
  | [] => false
  | c :: cs =>
    (lstartsWithCI (str "final") (c :: cs) &&
      lstartsWithCI (str "exam") (((c :: cs).drop 5).dropWhile isSpaceJS))
    || finalExamTest cs

/-- `ScheduleParser.isFinalExamLine`: `/final\s*exam/i` or `/\bFI\b/`
(the second test is case-sensitive). -/
def isFinalExamLine (line : List Char) : Bool :=
  finalExamTest line || existsWordAlt false [str "FI"] none line

/-- Day alternatives `(M|Tu|W|Th|F|Sa|Su)`, in the source's order. -/
def dayAlts : List (List Char) :=
  [str "M", str "Tu", str "W", str "Th", str "F", str "Sa", str "Su"]

/-- Match `\d{1,2}:\d{2}[ap]m?-\d{1,2}:\d{2}[ap]m?$` (with `i` flag) against
the whole of `l` — the time group of `splitDayTime`. -/
def timeGroupFull (l : List Char) : Bool :=
  match consumeTimeComp isApCI l with
  | some rest =>
    let afterDash :=
      match rest with
      | 'm' :: '-' :: r => some r
      | 'M' :: '-' :: r => some r
      | '-' :: r => some r
      | _ => none
    (match afterDash with
     | some r =>
       (match consumeTimeComp isApCI r with
        | some r2 =>
          (match r2 with
           | [] => true
           | [c] => toLowerCh c == 'm'
           | _ => false)
        | none => false)
     | none => false)
  | none => false

/-- `ScheduleParser.splitDayTime`: match
`/^(M|Tu|W|Th|F|Sa|Su)(\d{1,2}:\d{2}[ap]m?-\d{1,2}:\d{2}[ap]m?)$/i`, returning
`{ day: normalizeDays(match[1]), time: match[2] }`. -/
def splitDayTime (field : List Char) : Option (List Char × List Char) :=
  if field = [] then none
  else
    (dayAlts.foldl (fun acc alt =>
      match acc with
      | some r => some r
      | none =>
        if lstartsWithCI alt field then
          let rest := field.drop alt.length
          if timeGroupFull rest then some (field.take alt.length, rest) else none
        else none) none).map
      (fun m => (normalizeDays m.1, m.2))

/-- Capture groups of `/(\d{1,2}):(\d{2})([ap])m?-(\d{1,2}):(\d{2})([ap])m?/`
(`parseTimeRange`'s regex, case-sensitive): numeric hours (as `parseInt` of the
digit group) plus minute digit characters and meridiem characters. -/
structure TimeGroups where
  h1 : Nat
  m1a : Char
  m1b : Char
  p1 : Char
  h2 : Nat
  m2a : Char
  m2b : Char
  p2 : Char

/-- Consume `(\d{1,2}):(\d{2})([ap])` at the start, returning the captured
values and the remainder (two hour digits tried greedily before one). -/
def consumeTimeCompG : List Char → Option (Nat × Char × Char × Char × List Char)
  | a :: rest1 =>
    if isDigitCh a then
      match rest1 with
      | b :: ':' :: m1 :: m2 :: p :: rest2 =>
        if isDigitCh b && isDigitCh m1 && isDigitCh m2 && isApCS p then
          some ((a.toNat - 48) * 10 + (b.toNat - 48), m1, m2, p, rest2)
        else
          match rest1 with
          | ':' :: n1 :: n2 :: q :: rest3 =>
            if isDigitCh n1 && isDigitCh n2 && isApCS q then
              some (a.toNat - 48, n1, n2, q, rest3)
            else none
          | _ => none
      | ':' :: n1 :: n2 :: q :: rest3 =>
        if isDigitCh n1 && isDigitCh n2 && isApCS q then
          some (a.toNat - 48, n1, n2, q, rest3)
        else none
      | _ => none
    else none
  | [] => none

/-- The `m?-` step of `parseTimeRange`'s regex: an optional literal `m`
followed by the required dash (backtracking compiled away). -/
def dashStep : List Char → Option (List Char)
  | 'm' :: '-' :: r => some r
  | '-' :: r => some r
  | _ => none

/-- Match the whole `parseTimeRange` regex at the start of `l`. -/
def timeRangeMatchAt (l : List Char) : Option TimeGroups :=
  match consumeTimeCompG l with
  | some (h1, m1a, m1b, p1, rest) =>
    (match dashStep rest with
     | some r =>
       (match consumeTimeCompG r with
        | some (h2, m2a, m2b, p2, _) => some ⟨h1, m1a, m1b, p1, h2, m2a, m2b, p2⟩
        | none => none)
     | none => none)
  | none => none

/-- Leftmost match of the `parseTimeRange` regex. -/
def timeRangeMatch : List Char → Option TimeGroups
  | [] => none
  | c :: cs =>
    match timeRangeMatchAt (c :: cs) with
    | some g => some g
    | none => timeRangeMatch cs

/-- `Nat.repr` as a character list (JS number-to-string interpolation). -/
def natRepr (n : Nat) : List Char := (Nat.repr n).data

/-- `ScheduleParser.parseTimeRange`: returns
`{ start: `H:MMxm`, end: `H:MMxm` }` on a match and two empty strings
otherwise. -/
def parseTimeRange (timeRange : List Char) : List Char × List Char :=
  match timeRangeMatch timeRange with
  | some g =>
    (natRepr g.h1 ++ [':', g.m1a, g.m1b, g.p1, 'm'],
     natRepr g.h2 ++ [':', g.m2a, g.m2b, g.p2, 'm'])
  | none => ([], [])

/-!
## Building / day-pattern / session-type recognizers
-/

/-- `ScheduleParser.isBuildingCode`'s exclusion list. -/
def buildingExcludeWords : List (List Char) :=
  [str "DROP", str "CHANGE", str "ENROLLED", str "WAITLIST", str "STATUS",
   str "POSITION", str "LE", str "DI", str "LA", str "FI", str "MI",
   str "MWF", str "TUTH", str "ACTION", str "M", str "W", str "F"]

/-- `ScheduleParser.isBuildingCode`'s known-building list. -/
def knownBuildings : List (List Char) :=
  [str "CENTR", str "CENTER", str "LEDDN", str "LEDN", str "YORK",
   str "PCYNH", str "PETER", str "WLH", str "SOLIS", str "PODEM", str "MOS",
   str "CSB", str "EBU3B", str "EBU1", str "EBU2", str "JWMMC", str "SME",
   str "MANDE", str "MAYER", str "UREY", str "BONNER", str "NSB",
   str "PACIF", str "MYR-A", str "HSS", str "GALB", str "SEQUO",
   str "CRAWF", str "BSB", str "CMME", str "CMMW", str "MTF", str "LSRI",
   str "APM", str "RCLAS", str "GAL", str "RWAC", str "COA", str "FAH",
   str "PRICE", str "CPMC", str "DANCE", str "GYM", str "RBC", str "OTRSN",
   str "ERCA", str "DIB", str "MOGU", str "GH", str "AP", str "HL",
   str "MC", str "PH", str "SH", str "TBA", str "REMOTE", str "ONLINE"]

/-- `ScheduleParser.isBuildingCode`. -/
def isBuildingCode (field : List Char) : Bool :=
  let f := toUpperJS (jsTrim field)
  if buildingExcludeWords.any (· == f) then false
  else if knownBuildings.any (· == f) then true
  else if 2 ≤ f.length && f.length ≤ 6 && f.all isUpperAZ &&
      ¬ buildingExcludeWords.any (· == f) then true
  else false

/-- Letters that can never occur in a day pattern:
`/[BCDGIJKLNOPQRVXYZ]/i`. -/
def isNonDayLetter (c : Char) : Bool :=
  (str "BCDGIJKLNOPQRVXYZ").any (fun d => toLowerCh c == toLowerCh d)

/-- Full match of `/^(M|Tu|W|Th|F|Sa|Su)+$/i`. -/
def daysPlusTest : List Char → Bool
  | [] => false
  | c :: cs =>
    (toLowerCh c == 'm' && (cs.isEmpty || daysPlusTest cs)) ||
    (match cs with
     | d :: rest =>
       (toLowerCh c == 't' && toLowerCh d == 'u' && (rest.isEmpty || daysPlusTest rest)) ||
       (toLowerCh c == 't' && toLowerCh d == 'h' && (rest.isEmpty || daysPlusTest rest)) ||
       (toLowerCh c == 's' && toLowerCh d == 'a' && (rest.isEmpty || daysPlusTest rest)) ||
       (toLowerCh c == 's' && toLowerCh d == 'u' && (rest.isEmpty || daysPlusTest rest))
     | [] => false) ||
    (toLowerCh c == 'w' && (cs.isEmpty || daysPlusTest cs)) ||
    (toLowerCh c == 'f' && (cs.isEmpty || daysPlusTest cs))

/-- `ScheduleParser.isDaysPattern`. -/
def isDaysPattern (field : List Char) : Bool :=
  if field = [] then false
  else
    let trimmed := jsTrim field
    if isBuildingCode trimmed then false
    else
      let noSpaces := removeSpacesJS trimmed
      if noSpaces.any isNonDayLetter then false
      else
        let normalized := normalizeDays trimmed
        if normalized = [] then false
        else daysPlusTest normalized

/-- `ScheduleParser.normalizeSessionType`. -/
def normalizeSessionType (type : List Char) : List Char :=
  let u := toUpperJS type
  if u == str "LE" then str "Lecture"
  else if u == str "DI" then str "Discussion"
  else if u == str "LA" then str "Lab"
  else if u == str "FI" then str "Final Exam"
  else if u == str "MI" then str "Midterm"
  else if type ≠ [] then type
  else str "Lecture"

/-!
## Line parsers (ScheduleParser.parseMainCourseLine etc.)
-/

/-- The `actionWords` list shared by the line parsers. -/
def actionWords : List (List Char) :=
  [str "DROP", str "CHANGE", str "ENROLLED", str "WAITLIST", str "STATUS",
   str "POSITION", str "ACTION"]

def isActionWord (f : List Char) : Bool := actionWords.any (· == toUpperJS f)

/-- Field test `/^[A-F][0-9O]{2}$/i` (section code, tolerating the O/0 OCR
confusion; the `i` flag makes the classes case-insensitive). -/
def isSectionFieldCode (f : List Char) : Bool :=
  match f with
  | [a, b, c] =>
    ('a' ≤ toLowerCh a && toLowerCh a ≤ 'f') &&
    (isDigitCh b || toLowerCh b == 'o') &&
    (isDigitCh c || toLowerCh c == 'o')
  | _ => false

/-- Field test `/^(LE|DI|LA)$/i`. -/
def isSessionTypeCode (f : List Char) : Bool :=
  toUpperJS f == str "LE" || toUpperJS f == str "DI" || toUpperJS f == str "LA"

/-- Field test `/^[A-Z0-9]{2,5}$/i` (room shape). -/
def isRoomShape (f : List Char) : Bool :=
  2 ≤ f.length && f.length ≤ 5 && f.all fun c => isLetterAZ c || isDigitCh c

/-- Regex `/^\d/`. -/
def leadsWithDigit (f : List Char) : Bool :=
  match f with
  | c :: _ => isDigitCh c
  | [] => false

/-- JS `field.replace(/:$/, '')`. -/
def stripTrailingColon (f : List Char) : List Char :=
  match f.getLast? with
  | some ':' => f.dropLast
  | _ => f

/-- JS `location` assembly:
`building && room ? b + ' ' + r : building || room || 'TBA'`. -/
def jsLocation (b r : List Char) : List Char :=
  if b ≠ [] && r ≠ [] then b ++ str " " ++ r
  else if b ≠ [] then b
  else if r ≠ [] then r
  else str "TBA"

/-- Accumulator for the field-classification loops. -/
structure FieldScan where
  sectionCode : List Char := []
  sessionType : List Char := []
  instructor : List Char := []
  days : List Char := []
  timeRange : List Char := []
  building : List Char := []
  room : List Char := []

/-- One iteration of `parseMainCourseLine`'s field loop. -/
def mainFieldStep (st : FieldScan) (f0 : List Char) : FieldScan :=
  let field := jsTrim f0
  if field = [] then st
  else if isActionWord field then st
  else if isSectionFieldCode field then
    {st with sectionCode := replaceCharJS 'O' '0' field}
  else if isSessionTypeCode field then
    {st with sessionType := normalizeSessionType field}
  else if substrIn (str ",") field && ¬ leadsWithDigit field && 3 < field.length then
    {st with instructor := jsTrim (stripTrailingColon field)}
  else if (splitDayTime field).isSome then
    match splitDayTime field with
    | some (d, t) => {st with days := d, timeRange := t}
    | none => st
  else if timeRangeTest field then {st with timeRange := field}
  else if isBuildingCode field then {st with building := field}
  else if isDaysPattern field then {st with days := normalizeDays field}
  else if isRoomShape field &&
      ¬ [str "LE", str "DI", str "LA", str "FI", str "MI", str "L", str "P"].any
          (· == toUpperJS field) &&
      ¬ isActionWord field then
    (if st.building = [] then {st with building := field} else {st with room := field})
  else st

structure MainParse where
  courseCode : List Char
  courseTitle : List Char
  instructor : List Char
  event : CourseEvent
  deriving DecidableEq

/-- `ScheduleParser.parseMainCourseLine`. -/
def parseMainCourseLine (fields : List (List Char)) (quarter year : List Char) :
    Option MainParse :=
  let courseCode := jsTrim (fields.getD 0 [])
  let courseTitle := jsTrim (fields.getD 1 [])
  let st := (fields.drop 2).foldl mainFieldStep {}
  if courseCode = [] then none
  else
    let times := parseTimeRange st.timeRange
    some
      { courseCode, courseTitle, instructor := st.instructor,
        event :=
          { courseCode, courseTitle,
            sessionType := if st.sessionType = [] then str "Lecture" else st.sessionType,
            sectionCode := st.sectionCode,
            instructor := st.instructor,
            days := st.days,
            startTime := times.1, endTime := times.2,
            location := jsLocation st.building st.room,
            building := st.building, room := st.room,
            quarter, year } }

/-- Field test `/^(M|Tu|W|Th|F|Sa|Su)$/i` (exact single day). -/
def isSingleDay (f : List Char) : Bool :=
  dayAlts.any fun a => toLowerJS f == toLowerJS a

/-- One iteration of `parseSecondarySessionLine`'s field loop. -/
def secFieldStep (st : FieldScan) (f0 : List Char) : FieldScan :=
  let field := jsTrim f0
  if field = [] then st
  else if isActionWord field then st
  else if isSectionFieldCode field then
    {st with sectionCode := replaceCharJS 'O' '0' field}
  else if isSessionTypeCode field then
    {st with sessionType := normalizeSessionType field}
  else if (splitDayTime field).isSome then
    match splitDayTime field with
    | some (d, t) => {st with days := d, timeRange := t}
    | none => st
  else if timeRangeTest field then {st with timeRange := field}
  else if isBuildingCode field then {st with building := field}
  else if isSingleDay field then {st with days := normalizeDays field}
  else if isDaysPattern field then {st with days := normalizeDays field}
  else if isRoomShape field &&
      ¬ [str "LE", str "DI", str "LA", str "FI", str "MI", str "L",
         str "TU", str "TH", str "SA", str "SU"].any (· == toUpperJS field) &&
      ¬ isActionWord field then
    (if st.building = [] then {st with building := field}
     else if st.room = [] then {st with room := field}
     else st)
  else st

/-- `ScheduleParser.parseSecondarySessionLine`. -/
def parseSecondarySessionLine (fields : List (List Char))
    (courseCode courseTitle instructor quarter year : List Char) : CourseEvent :=
  let st := fields.foldl secFieldStep {}
  let times := parseTimeRange st.timeRange
  let days1 :=
    if st.days = [] && st.timeRange ≠ [] then str "MISSING_DAY" else st.days
  let days2 :=
    if st.timeRange = [] && (days1 = [] || days1 == str "TBA") then str "TBA"
    else days1
  { courseCode, courseTitle,
    sessionType := if st.sessionType = [] then str "Discussion" else st.sessionType,
    sectionCode := st.sectionCode,
    instructor,
    days := days2,
    startTime := times.1, endTime := times.2,
    location := jsLocation st.building st.room,
    building := st.building, room := st.room,
    quarter, year }

/-- Date shape `\d{1,2}\/\d{1,2}\/\d{2,4}` anchored at the end of the field
(the second capture group of the exam day+date regex). -/
def dateShapeFull (l : List Char) : Bool :=
  let p1 := l.takeWhile isDigitCh
  let r1 := l.drop p1.length
  (1 ≤ p1.length && p1.length ≤ 2) &&
  (match r1 with
   | '/' :: r2 =>
     let p2 := r2.takeWhile isDigitCh
     let r3 := r2.drop p2.length
     (1 ≤ p2.length && p2.length ≤ 2) &&
     (match r3 with
      | '/' :: r4 =>
        let p3 := r4.takeWhile isDigitCh
        (2 ≤ p3.length && p3.length ≤ 4) && r4.drop p3.length = []
      | _ => false)
   | _ => false)

/-- Match `/^(M|Tu|W|Th|F|Sa|Su)\s+(\d{1,2}\/\d{1,2}\/\d{2,4})$/i`, returning
the two capture groups (original text). -/
def dayDateMatch (f : List Char) : Option (List Char × List Char) :=
  dayAlts.foldl (fun acc alt =>
    match acc with
    | some r => some r
    | none =>
      if lstartsWithCI alt f then
        let rest := f.drop alt.length
        match rest with
        | s :: _ =>
          if isSpaceJS s then
            let datePart := rest.dropWhile isSpaceJS
            if dateShapeFull datePart then some (f.take alt.length, datePart)
            else none
          else none
        | [] => none
      else none) none

/-- Accumulator for the exam-line field loops. -/
structure ExamScan where
  examDay : List Char := []
  examDate : List Char := []
  timeRange : List Char := []
  building : List Char := []
  room : List Char := []

/-- One iteration of the exam-line field loop; `skipWords` are the literal
fields ignored by the loop (`'Midterm'/'MI'` or `'Final Exam'/'FI'`). -/
def examFieldStep (skipWords : List (List Char)) (st : ExamScan)
    (f0 : List Char) : ExamScan :=
  let f := jsTrim f0
  if f = [] || skipWords.any (· == f) || isActionWord f then st
  else
    match dayDateMatch f with
    | some (d, dt) => {st with examDay := d, examDate := dt}
    | none =>
      if timeRangeTest f then {st with timeRange := f}
      else if isBuildingCode f then {st with building := f}
      else if isRoomShape f &&
          ¬ [str "MI", str "FI"].any (· == toUpperJS f) then
        (if st.building ≠ [] && st.room = [] then {st with room := f} else st)
      else st

/-- `ScheduleParser.parseMidtermLine`. -/
def parseMidtermLine (fields : List (List Char))
    (courseCode courseTitle instructor inheritedSection quarter year : List Char) :
    CourseEvent :=
  let st := fields.foldl (examFieldStep [str "Midterm", str "MI"]) {}
  let times := parseTimeRange st.timeRange
  { courseCode, courseTitle,
    sessionType := str "Midterm",
    sectionCode := if inheritedSection = [] then [] else inheritedSection,
    instructor,
    days := st.examDay,
    startTime := times.1, endTime := times.2,
    location := jsLocation st.building st.room,
    building := st.building, room := st.room,
    finalDate := st.examDate, finalDay := st.examDay,
    quarter, year }

/-- `ScheduleParser.parseFinalExamLine`. -/
def parseFinalExamLine (fields : List (List Char))
    (courseCode courseTitle instructor inheritedSection quarter year : List Char) :
    CourseEvent :=
  let st := fields.foldl (examFieldStep [str "Final Exam", str "FI"]) {}
  let times := parseTimeRange st.timeRange
  { courseCode, courseTitle,
    sessionType := str "Final Exam",
    sectionCode := if inheritedSection = [] then [] else inheritedSection,
    instructor,
    days := st.examDay,
    startTime := times.1, endTime := times.2,
    location := jsLocation st.building st.room,
    building := st.building, room := st.room,
    finalDate := st.examDate, finalDay := st.examDay,
    quarter, year }

/-!
## Session aggregator (ScheduleParser.parseWebRegFormat)
-/

structure ParseState where
  currentCourse : List Char := []
  currentTitle : List Char := []
  currentInstructor : List Char := []
  currentSection : List Char := []
  lastAddedEventIndex : Int := -1
  events : List CourseEvent := []

/-- Tab-split, trimmed, filtered fields of a line
(`line.split('\t').map(f => f.trim()).filter(f => f.length > 0)`). -/
def fieldsOf (line : List Char) : List (List Char) :=
  ((splitOnChar '\t' line).map jsTrim).filter (· ≠ [])

/-- One iteration of `parseWebRegFormat`'s line loop. -/
def processLine (quarter year : List Char) (st : ParseState) (line : List Char) :
    ParseState :=
  if isHeaderLine line then st
  else if isOrphanInstructorLine line then
    let name := jsTrim line
    if st.currentCourse ≠ [] && st.currentInstructor = [] then
      let st1 := {st with currentInstructor := name}
      if 0 ≤ st.lastAddedEventIndex then
        match st.events.get? st.lastAddedEventIndex.toNat with
        | some ev =>
          if ev.instructor = [] then
            {st1 with events :=
              st.events.set st.lastAddedEventIndex.toNat {ev with instructor := name}}
          else st1
        | none => st1
      else st1
    else st
  else
    let fields := fieldsOf line
    if isCourseCodeStart (fields.getD 0 []) then
      match parseMainCourseLine fields quarter year with
      | some p =>
        { currentCourse := p.courseCode, currentTitle := p.courseTitle,
          currentInstructor := p.instructor,
          currentSection := p.event.sectionCode,
          lastAddedEventIndex := Int.ofNat st.events.length,
          events := st.events ++ [p.event] }
      | none => st
    else if isSectionCodeStart (fields.getD 0 []) && st.currentCourse ≠ [] then
      let parsed := parseSecondarySessionLine fields st.currentCourse st.currentTitle
        st.currentInstructor quarter year
      if parsed.sectionCode ≠ [] then
        {st with currentSection := parsed.sectionCode,
                 events := st.events ++ [parsed]}
      else if st.currentSection ≠ [] then
        {st with events := st.events ++ [{parsed with sectionCode := st.currentSection}]}
      else
        {st with events := st.events ++ [parsed]}
    else if isMidtermLine line && st.currentCourse ≠ [] then
      {st with events := st.events ++
        [parseMidtermLine fields st.currentCourse st.currentTitle
          st.currentInstructor st.currentSection quarter year]}
    else if isFinalExamLine line && st.currentCourse ≠ [] then
      {st with events := st.events ++
        [parseFinalExamLine fields st.currentCourse st.currentTitle
          st.currentInstructor st.currentSection quarter year]}
    else st

def processLines (quarter year : List Char) (lines : List (List Char))
    (st : ParseState) : ParseState :=
  lines.foldl (processLine quarter year) st

/-- `ScheduleParser.parseWebRegFormat`. -/
def parseWebRegFormat (text quarter year : List Char) : List CourseEvent :=
  let lines := ((splitLinesJS text).map jsTrim).filter (· ≠ [])
  (processLines quarter year lines {}).events

/-- `\r\n` → `\n` (one pass of `replace(/\r\n/g, '\n')`). -/
def crlfToLf : List Char → List Char
  | [] => []
  | '\r' :: '\n' :: cs => '\n' :: crlfToLf cs
  | c :: cs => c :: crlfToLf cs

/-- `ScheduleParser.normalizeTextForParsing`: dash normalization, NBSP → space,
line-ending normalization (tabs preserved). -/
def normalizeTextForParsing (rawText : List Char) : List Char :=
  replaceCharJS '\r' '\n'
    (crlfToLf
      (replaceCharJS '\u00A0' ' '
        (replaceCharJS '\u2014' '-' (replaceCharJS '\u2013' '-' rawText))))

/-- `ScheduleParser.createEmergencyFallback`: a single fixed placeholder
record. -/
def createEmergencyFallback (quarter year : List Char) : List CourseEvent :=
  [{ courseCode := str "EXAMPLE 101",
     courseTitle := str "OCR Parsing Failed",
     sessionType := str "Lecture",
     sectionCode := str "A00",
     instructor := str "Please try again",
     days := str "MW",
     startTime := str "12:00pm",
     endTime := str "1:20pm",
     location := str "Upload a clearer image",
     quarter, year }]

/-- `ScheduleParser.parseTextToEvents` (the JS guard `!rawText` is subsumed by
the length test, since only the empty string is falsy and has length 0). -/
def parseTextToEvents (rawText quarter year : List Char) : List CourseEvent :=
  if rawText.length < 50 then createEmergencyFallback quarter year
  else
    let parsedEvents := parseWebRegFormat (normalizeTextForParsing rawText) quarter year
    if 0 < parsedEvents.length then parsedEvents
    else createEmergencyFallback quarter year

/-!
## googleCalendar.js — dates and event synthesis

JS `Date` values are modelled as minutes since the civil epoch 1970-01-01
plus a validity flag (`valid := false` models an Invalid Date, whose numeric
value is NaN: every ordered comparison against it is false and its formatted
components are the string `NaN`).
-/

structure JSDate where
  mins : Int
  valid : Bool
  deriving Repr, DecidableEq

/-- Civil-calendar day number (days since 1970-01-01) of year/month/day with
month 1..12; the standard Gregorian conversion. -/
def daysFromCivil (y m d : Int) : Int :=
  let y' := y - (if m ≤ 2 then 1 else 0)
  let era := Int.fdiv y' 400
  let yoe := y' - era * 400
  let mp := m + (if 2 < m then -3 else 9)
  let doy := Int.fdiv (153 * mp + 2) 5 + d - 1
  let doe := yoe * 365 + Int.fdiv yoe 4 - Int.fdiv yoe 100 + doy
  era * 146097 + doe - 719468

/-- Inverse of `daysFromCivil`: year, month (1..12), day. -/
def civilFromDays (z0 : Int) : Int × Int × Int :=
  let z := z0 + 719468
  let era := Int.fdiv z 146097
  let doe := z - era * 146097
  let yoe := Int.fdiv (doe - Int.fdiv doe 1460 + Int.fdiv doe 36524 - Int.fdiv doe 146096) 365
  let y' := yoe + era * 400
  let doy := doe - (365 * yoe + Int.fdiv yoe 4 - Int.fdiv yoe 100)
  let mp := Int.fdiv (5 * doy + 2) 153
  let d := doy - Int.fdiv (153 * mp + 2) 5 + 1
  let m := mp + (if mp < 10 then 3 else -9)
  (y' + (if m ≤ 2 then 1 else 0), m, d)

/-- `new Date(year, monthIndex, day)` — two-digit years map to 19xx, and
out-of-range month/day values are normalized as in JS. -/
def jsNewDateYMD (y m d : Option Int) : JSDate :=
  match y, m, d with
  | some y, some m, some d =>
    let yAdj := if 0 ≤ y && y ≤ 99 then y + 1900 else y
    let ry := yAdj + Int.fdiv m 12
    let rm := Int.fmod m 12
    { mins := 1440 * (daysFromCivil ry (rm + 1) 1 + (d - 1)), valid := true }
  | _, _, _ => { mins := 0, valid := false }

/-- `date.setHours(hours, minutes, 0, 0)` (overflow rolls into days, as JS). -/
def jsSetHours (dt : JSDate) (h min : Int) : JSDate :=
  { mins := 1440 * Int.fdiv dt.mins 1440 + 60 * h + min, valid := dt.valid }

/-- `date.getDay()` (0 = Sunday); 1970-01-01 is a Thursday. -/
def jsGetDay (dt : JSDate) : Int := Int.fmod (Int.fdiv dt.mins 1440 + 4) 7

/-- JS `parseInt` on a string: optional leading whitespace and sign, then a
digit prefix; `none` for NaN. -/
def jsParseInt (sIn : List Char) : Option Int :=
  let s := sIn.dropWhile isSpaceJS
  let (sign, s2) :=
    match s with
    | '-' :: r => ((-1 : Int), r)
    | '+' :: r => ((1 : Int), r)
    | r => ((1 : Int), r)
  let ds := s2.takeWhile isDigitCh
  if ds = [] then none
  else some (sign * Int.ofNat (ds.foldl (fun a c => a * 10 + (c.toNat - 48)) 0))

/-- Int-to-string as JS template interpolation of a number. -/
def intRepr (n : Int) : List Char := (Int.repr n).data

/-- `String(n).padStart(2, '0')`. -/
def pad2 (n : Int) : List Char :=
  let s := intRepr n
  if s.length < 2 then '0' :: s else s

/-- `GoogleCalendarAPI.formatDateTimeForICS`: `YYYYMMDDTHHMMSS` from local
components (an Invalid Date renders every component as `NaN`). -/
def formatDateTimeForICS (dt : JSDate) : List Char :=
  if dt.valid then
    let days := Int.fdiv dt.mins 1440
    let rem := dt.mins - 1440 * days
    let h := Int.fdiv rem 60
    let mi := rem - 60 * h
    let c := civilFromDays days
    intRepr c.1 ++ pad2 c.2.1 ++ pad2 c.2.2 ++ str "T" ++ pad2 h ++ pad2 mi ++ pad2 0
  else str "NaNNaNNaNTNaNNaNNaN"

/-- `GoogleCalendarAPI.formatDateForICS` (`YYYYMMDD`); JS returns `''` for a
falsy argument, which is how the dead recurring-rule path receives
`undefined`. -/
def formatDateForICS (dt : Option JSDate) : List Char :=
  match dt with
  | none => []
  | some d =>
    let days := Int.fdiv d.mins 1440
    let c := civilFromDays days
    if d.valid then intRepr c.1 ++ pad2 c.2.1 ++ pad2 c.2.2
    else str "NaNNaNNaN"

/-- Match of `/(\d{1,2}):(\d{2})\s*(am|pm)/i` at the start of `l`:
hour value, minute value, and whether the meridiem is `pm`. -/
def timeToDateMatchAt (l : List Char) : Option (Int × Int × Bool) :=
  let afterHour : Int → List Char → Option (Int × Int × Bool) := fun h rest =>
    match rest with
    | ':' :: m1 :: m2 :: r =>
      if isDigitCh m1 && isDigitCh m2 then
        let r2 := r.dropWhile isSpaceJS
        match r2 with
        | a :: b :: _ =>
          if toLowerCh a == 'a' && toLowerCh b == 'm' then
            some (h, Int.ofNat ((m1.toNat - 48) * 10 + (m2.toNat - 48)), false)
          else if toLowerCh a == 'p' && toLowerCh b == 'm' then
            some (h, Int.ofNat ((m1.toNat - 48) * 10 + (m2.toNat - 48)), true)
          else none
        | _ => none
      else none
    | _ => none
  match l with
  | a :: b :: rest =>
    if isDigitCh a && isDigitCh b then
      match afterHour (Int.ofNat ((a.toNat - 48) * 10 + (b.toNat - 48))) rest with
      | some g => some g
      | none =>
        if isDigitCh a then afterHour (Int.ofNat (a.toNat - 48)) (b :: rest) else none
    else if isDigitCh a then afterHour (Int.ofNat (a.toNat - 48)) (b :: rest)
    else none
  | [_] => none
  | [] => none

/-- Leftmost match of `parseTimeToDate`'s regex. -/
def timeToDateMatch : List Char → Option (Int × Int × Bool)
  | [] => none
  | c :: cs =>
    match timeToDateMatchAt (c :: cs) with
    | some g => some g
    | none => timeToDateMatch cs

/-- `GoogleCalendarAPI.parseTimeToDate`. -/
def parseTimeToDate (timeStr : List Char) (baseDate : JSDate) : Option JSDate :=
  if timeStr = [] then none
  else
    match timeToDateMatch timeStr with
    | none => none
    | some (h0, m, isPm) =>
      let h1 := if isPm && h0 ≠ 12 then h0 + 12 else h0
      let h2 := if ¬ isPm && h0 == 12 then 0 else h1
      some (jsSetHours baseDate h2 m)

/-- `event.courseCode.replace(/\s+/g, '')`. -/
def stripAllSpace (l : List Char) : List Char := l.filter (fun c => ¬ isSpaceJS c)

/-- Join event-block lines with CRLF (`[...].join('\r\n')`). -/
def joinCRLF (lines : List (List Char)) : List Char :=
  (lines.intersperse (str "\r\n")).flatten

/-- `GoogleCalendarAPI.createFinalExamEvent`. -/
def createFinalExamEvent (event : CourseEvent) (quarter year : List Char) :
    Option (List Char) :=
  let finalDate := event.finalDate
  if finalDate = [] then none
  else
    let examDate :=
      if substrIn (str "/") finalDate then
        let parts := splitOnChar '/' finalDate
        let month := jsParseInt (parts.getD 0 [])
        let day := jsParseInt (parts.getD 1 (str "undefined"))
        let examYear := jsParseInt (parts.getD 2 (str "undefined"))
        jsNewDateYMD examYear (month.map (· - 1)) day
      else jsNewDateYMD (jsParseInt year) (some 11) (some 15)
    match parseTimeToDate event.startTime examDate,
          parseTimeToDate event.endTime examDate with
    | some startDateTime, some endDateTime =>
      let uid := str "final-" ++ stripAllSpace event.courseCode ++ str "-" ++
        quarter ++ str "-" ++ year ++ str "@ucsd.edu"
      some (joinCRLF
        [str "BEGIN:VEVENT",
         str "UID:" ++ uid,
         str "DTSTART;TZID=America/Los_Angeles:" ++ formatDateTimeForICS startDateTime,
         str "DTEND;TZID=America/Los_Angeles:" ++ formatDateTimeForICS endDateTime,
         str "SUMMARY:" ++ event.courseCode ++ str " Final Exam",
         str "DESCRIPTION:" ++ getEventDescription event,
         str "LOCATION:" ++ (if event.location ≠ [] then event.location else str "TBA"),
         str "STATUS:CONFIRMED",
         str "TRANSP:OPAQUE",
         str "END:VEVENT"])
    | _, _ => none

/-!
## Quarter dates and weekly events

The class `GoogleCalendarAPI` defines `getQuarterDates` twice; in JS the later
definition wins, so the effective method is the string-returning one under
"SHARED UTILITY METHODS" (lines 729-759), with fields
`start`/`recurringStart`/`end` — not the earlier Date-returning one.
-/

structure QuarterR where
  start : List Char
  recurringStart : List Char
  end_ : List Char
  deriving Repr, DecidableEq

/-- `GoogleCalendarAPI.getQuarterDates` (the effective, later definition). -/
def getQuarterDates (quarter year : List Char) : QuarterR :=
  let y := year
  if quarter == str "Fall" then
    ⟨str "09/25/" ++ y, str "09/29/" ++ y, str "12/13/" ++ y⟩
  else if quarter == str "Winter" then
    ⟨str "01/06/" ++ y, str "01/06/" ++ y, str "03/21/" ++ y⟩
  else if quarter == str "Spring" then
    ⟨str "03/31/" ++ y, str "03/31/" ++ y, str "06/13/" ++ y⟩
  else if quarter == str "Summer Session 1" then
    ⟨str "06/23/" ++ y, str "06/23/" ++ y, str "08/01/" ++ y⟩
  else if quarter == str "Summer Session 2" then
    ⟨str "08/04/" ++ y, str "08/04/" ++ y, str "09/12/" ++ y⟩
  else
    ⟨str "09/25/" ++ y, str "09/29/" ++ y, str "12/13/" ++ y⟩

/-- `GoogleCalendarAPI.parseWeekdays`. -/
def parseWeekdays (daysStr : List Char) : List (List Char) :=
  let dayString := daysStr
  let days :=
    if substrIn (str "MWF") dayString then [str "MO", str "WE", str "FR"]
    else if substrIn (str "TTh") dayString || substrIn (str "TuTh") dayString then
      [str "TU", str "TH"]
    else if substrIn (str "MW") dayString then [str "MO", str "WE"]
    else
      ([(str "M", str "MO"), (str "Tu", str "TU"), (str "W", str "WE"),
        (str "Th", str "TH"), (str "F", str "FR")].filter
        (fun kv => substrIn kv.1 dayString)).map (·.2)
  dedupFirst days

/-- `weekdayMap` of `findFirstWeekdayInRange`. -/
def weekdayCodeNum (w : List Char) : Option Int :=
  if w == str "MO" then some 1
  else if w == str "TU" then some 2
  else if w == str "WE" then some 3
  else if w == str "TH" then some 4
  else if w == str "FR" then some 5
  else if w == str "SA" then some 6
  else if w == str "SU" then some 0
  else none

/-- The date-scan loop of `findFirstWeekdayInRange`, with fuel bounding the
number of day steps. -/
def findWeekdayLoop (target : Int) (stop : Int) : Nat → Int → Option Int
  | 0, _ => none
  | fuel + 1, cur =>
    if cur ≤ stop then
      if Int.fmod (Int.fdiv cur 1440 + 4) 7 == target then some cur
      else findWeekdayLoop target stop fuel (cur + 1440)
    else none

/-- `GoogleCalendarAPI.findFirstWeekdayInRange`.  The start/end arguments are
`Option JSDate` because the live caller destructures fields that do not exist
on the quarter record, passing `undefined`; `new Date(undefined)` is an
Invalid Date and every NaN comparison is false, so the scan loop body never
runs and the result is `null`. -/
def findFirstWeekdayInRange (weekday : List Char)
    (startDate endDate : Option JSDate) : Option JSDate :=
  match weekdayCodeNum weekday with
  | none => none
  | some target =>
    match startDate, endDate with
    | some s, some e =>
      if s.valid && e.valid then
        match findWeekdayLoop target e.mins ((e.mins - s.mins).toNat / 1440 + 1) s.mins with
        | some m => some ⟨m, true⟩
        | none => none
      else none
    | _, _ => none

/-- `GoogleCalendarAPI.createWeeklyEvents`.

The source destructures `const { startDate, endDate } = this.getQuarterDates(...)`,
but the effective `getQuarterDates` returns `{start, recurringStart, end}`, so
both bindings are `undefined` (modelled as `none`). -/
def createWeeklyEvents (event : CourseEvent) (quarter year : List Char) :
    List (List Char) :=
  let _qd := getQuarterDates quarter year
  let startDate : Option JSDate := none
  let endDate : Option JSDate := none
  let daysToUse :=
    if event.days = [] then
      if getNormalizedSessionType event == str "Lecture" then str "MWF"
      else if getNormalizedSessionType event == str "Discussion" then str "F"
      else str "MW"
    else event.days
  let icsWeekdays := parseWeekdays daysToUse
  if icsWeekdays = [] then []
  else
    icsWeekdays.foldl (fun acc weekday =>
      match findFirstWeekdayInRange weekday startDate endDate with
      | none => acc
      | some firstOccurrence =>
        match parseTimeToDate event.startTime firstOccurrence,
              parseTimeToDate event.endTime firstOccurrence with
        | some startDateTime, some endDateTime =>
          let uid := stripAllSpace event.courseCode ++ str "-" ++
            event.sessionType ++ str "-" ++ weekday ++ str "-" ++ quarter ++
            str "-" ++ year ++ str "@ucsd.edu"
          acc ++ [joinCRLF
            [str "BEGIN:VEVENT",
             str "UID:" ++ uid,
             str "DTSTART;TZID=America/Los_Angeles:" ++
               formatDateTimeForICS startDateTime,
             str "DTEND;TZID=America/Los_Angeles:" ++
               formatDateTimeForICS endDateTime,
             str "RRULE:FREQ=WEEKLY;UNTIL=" ++ formatDateForICS endDate ++
               str "T235959Z",
             str "SUMMARY:" ++ getEventTitle event,
             str "DESCRIPTION:" ++ getEventDescription event,
             str "LOCATION:" ++
               (if event.location ≠ [] then event.location else str "TBA"),
             str "STATUS:CONFIRMED",
             str "TRANSP:OPAQUE",
             str "END:VEVENT"]]
        | _, _ => acc) []

/-- The ICS blocks `generateICSFile` appends for one event: the skip guard on
missing course code / start / end time, then the Final-Exam or weekly branch
(each block is appended together with its trailing CRLF). -/
def blocksForEvent (event : CourseEvent) (quarter year : List Char) :
    List (List Char) :=
  if event.courseCode = [] || event.startTime = [] || event.endTime = [] then []
  else
    let sessionType := getNormalizedSessionType event
    if sessionType == str "Final Exam" then
      match createFinalExamEvent event quarter year with
      | some finalEvent => [finalEvent ++ str "\r\n"]
      | none => []
    else if sessionType == str "Lecture" || sessionType == str "Discussion" ||
        sessionType == str "Lab" then
      (createWeeklyEvents event quarter year).map (· ++ str "\r\n")
    else []

/-- The serialized calendar document of `generateICSFile` (header, timezone
block, per-event blocks, footer). -/
def generateICSContent (events : List CourseEvent) (quarter year : List Char) :
    List Char :=
  let header := joinCRLF
    [str "BEGIN:VCALENDAR", str "VERSION:2.0",
     str "PRODID:-//Getting It Done//UCSD Schedule//EN",
     str "CALSCALE:GREGORIAN", str "METHOD:PUBLISH",
     str "X-WR-CALNAME:UCSD " ++ quarter ++ str " " ++ year ++ str " Schedule",
     str "X-WR-TIMEZONE:America/Los_Angeles"] ++ str "\r\n"
  let tz := joinCRLF
    [str "BEGIN:VTIMEZONE", str "TZID:America/Los_Angeles",
     str "BEGIN:DAYLIGHT", str "TZOFFSETFROM:-0800", str "TZOFFSETTO:-0700",
     str "TZNAME:PDT", str "DTSTART:20070311T020000",
     str "RRULE:FREQ=YEARLY;BYMONTH=3;BYDAY=2SU", str "END:DAYLIGHT",
     str "BEGIN:STANDARD", str "TZOFFSETFROM:-0700", str "TZOFFSETTO:-0800",
     str "TZNAME:PST", str "DTSTART:20071104T020000",
     str "RRULE:FREQ=YEARLY;BYMONTH=11;BYDAY=1SU", str "END:STANDARD",
     str "END:VTIMEZONE"] ++ str "\r\n"
  header ++ tz ++
    (events.map (fun e => (blocksForEvent e quarter year).flatten)).flatten ++
    str "END:VCALENDAR\r\n"


/-!
## Canonical day tokens (for stating the normalizer claims)
-/

inductive Day where
  | M | Tu | W | Th | F | Sa | Su
  deriving DecidableEq, Repr

/-- Canonical (output-case) spelling of a weekday code. -/
def dayUp : Day → List Char
  | .M => str "M"
  | .Tu => str "Tu"
  | .W => str "W"
  | .Th => str "Th"
  | .F => str "F"
  | .Sa => str "Sa"
  | .Su => str "Su"

/-- Lowercase spelling of a weekday code. -/
def dayLow : Day → List Char
  | .M => str "m"
  | .Tu => str "tu"
  | .W => str "w"
  | .Th => str "th"
  | .F => str "f"
  | .Sa => str "sa"
  | .Su => str "su"

/-- Concatenation of canonical weekday codes. -/
def joinUp (ts : List Day) : List Char := (ts.map dayUp).flatten

/-- Concatenation of lowercase weekday codes. -/
def joinLow (ts : List Day) : List Char := (ts.map dayLow).flatten

@[simp] lemma joinUp_nil : joinUp [] = [] := rfl

@[simp] lemma joinUp_cons (t : Day) (ts : List Day) :
    joinUp (t :: ts) = dayUp t ++ joinUp ts := rfl

@[simp] lemma joinLow_nil : joinLow [] = [] := rfl

@[simp] lemma joinLow_cons (t : Day) (ts : List Day) :
    joinLow (t :: ts) = dayLow t ++ joinLow ts := rfl

lemma joinUp_append (a b : List Day) : joinUp (a ++ b) = joinUp a ++ joinUp b := by
  simp [joinUp]

/-- The characters that can occur in a canonical day string. -/
def validUpChars : List Char := str "MTuWhFSa"

lemma dayUp_chars (t : Day) : ∀ c ∈ dayUp t, c ∈ validUpChars := by
  cases t <;> decide

lemma dayLow_ne_nil (t : Day) : dayLow t ≠ [] := by cases t <;> simp [dayLow, str]

lemma joinLow_eq_nil_iff (ts : List Day) : joinLow ts = [] ↔ ts = [] := by
  cases ts with
  | nil => simp
  | cons t ts => simp [dayLow_ne_nil t]

lemma dayUp_ne_nil (t : Day) : dayUp t ≠ [] := by cases t <;> simp [dayUp, str]

lemma joinUp_eq_nil_iff (ts : List Day) : joinUp ts = [] ↔ ts = [] := by
  cases ts with
  | nil => simp
  | cons t ts => simp [dayUp_ne_nil t]

/-- Rebuilding the lowercase concatenation of day tokens recovers the
canonical concatenation (the two-letter-first greedy scan retokenizes
unambiguously). -/
theorem rebuild_joinLow : ∀ ts : List Day,
    normalizeDaysRebuild (joinLow ts) = joinUp ts
  | [] => rfl
  | Day.M :: ts => by
    show normalizeDaysRebuild ('m' :: joinLow ts) = 'M' :: joinUp ts
    cases h : joinLow ts with
    | nil =>
      have h0 : ts = [] := (joinLow_eq_nil_iff ts).mp h
      subst h0
      simp [normalizeDaysRebuild, oneCharDay, str]
    | cons d rest =>
      have step : normalizeDaysRebuild ('m' :: d :: rest) =
          oneCharDay 'm' ++ normalizeDaysRebuild (d :: rest) := by
        simp [normalizeDaysRebuild, twoCharDay]
      rw [step, ← h, rebuild_joinLow ts]
      simp [oneCharDay, str]
  | Day.W :: ts => by
    show normalizeDaysRebuild ('w' :: joinLow ts) = 'W' :: joinUp ts
    cases h : joinLow ts with
    | nil =>
      have h0 : ts = [] := (joinLow_eq_nil_iff ts).mp h
      subst h0
      simp [normalizeDaysRebuild, oneCharDay, str]
    | cons d rest =>
      have step : normalizeDaysRebuild ('w' :: d :: rest) =
          oneCharDay 'w' ++ normalizeDaysRebuild (d :: rest) := by
        simp [normalizeDaysRebuild, twoCharDay]
      rw [step, ← h, rebuild_joinLow ts]
      simp [oneCharDay, str]
  | Day.F :: ts => by
    show normalizeDaysRebuild ('f' :: joinLow ts) = 'F' :: joinUp ts
    cases h : joinLow ts with
    | nil =>
      have h0 : ts = [] := (joinLow_eq_nil_iff ts).mp h
      subst h0
      simp [normalizeDaysRebuild, oneCharDay, str]
    | cons d rest =>
      have step : normalizeDaysRebuild ('f' :: d :: rest) =
          oneCharDay 'f' ++ normalizeDaysRebuild (d :: rest) := by
        simp [normalizeDaysRebuild, twoCharDay]
      rw [step, ← h, rebuild_joinLow ts]
      simp [oneCharDay, str]
  | Day.Tu :: ts => by
    show normalizeDaysRebuild ('t' :: 'u' :: joinLow ts) = 'T' :: 'u' :: joinUp ts
    rw [normalizeDaysRebuild]
    simp [twoCharDay, rebuild_joinLow ts, str]
  | Day.Th :: ts => by
    show normalizeDaysRebuild ('t' :: 'h' :: joinLow ts) = 'T' :: 'h' :: joinUp ts
    rw [normalizeDaysRebuild]
    simp [twoCharDay, rebuild_joinLow ts, str]
  | Day.Sa :: ts => by
    show normalizeDaysRebuild ('s' :: 'a' :: joinLow ts) = 'S' :: 'a' :: joinUp ts
    rw [normalizeDaysRebuild]
    simp [twoCharDay, rebuild_joinLow ts, str]
  | Day.Su :: ts => by
    show normalizeDaysRebuild ('s' :: 'u' :: joinLow ts) = 'S' :: 'u' :: joinUp ts
    rw [normalizeDaysRebuild]
    simp [twoCharDay, rebuild_joinLow ts, str]

lemma joinUp_chars (ts : List Day) : ∀ c ∈ joinUp ts, c ∈ validUpChars := by
  induction ts with
  | nil => intro c hc; simp [joinUp] at hc
  | cons t ts ih =>
    intro c hc
    rw [joinUp_cons, List.mem_append] at hc
    rcases hc with hc | hc
    · exact dayUp_chars t c hc
    · exact ih c hc

lemma validUp_props : ∀ c ∈ validUpChars,
    isSpaceJS c = false ∧ c ≠ 'E' ∧ c ≠ 'e' ∧ isArtifactCh c = false := by decide

lemma listFilterAll {p : Char → Bool} :
    ∀ l : List Char, (∀ c ∈ l, p c = true) → l.filter p = l := by
  intro l h
  induction l with
  | nil => rfl
  | cons a t ih =>
    have ha := h a (by simp)
    simp [List.filter, ha, ih (fun c hc => h c (by simp [hc]))]

lemma listMapId {f : Char → Char} :
    ∀ l : List Char, (∀ c ∈ l, f c = c) → l.map f = l := by
  intro l h
  induction l with
  | nil => rfl
  | cons a t ih =>
    simp [h a (by simp), ih (fun c hc => h c (by simp [hc]))]

lemma listGetLastMem : ∀ (l : List Char) (c : Char), l.getLast? = some c → c ∈ l := by
  intro l
  induction l with
  | nil => intro c h; simp at h
  | cons a t ih =>
    intro c h
    cases t with
    | nil => simp at h; simp [h]
    | cons b t' =>
      rw [List.getLast?_cons_cons] at h
      exact List.mem_cons_of_mem a (ih c h)

lemma removeSpaces_joinUp (ts : List Day) : removeSpacesJS (joinUp ts) = joinUp ts := by
  refine listFilterAll _ (fun c hc => ?_)
  simp [(validUp_props c (joinUp_chars ts c hc)).1]

lemma correct_joinUp (ts : List Day) : correctOCRDays (joinUp ts) = joinUp ts := by
  have hmap : replaceCharJS 'e' 'f' (replaceCharJS 'E' 'F' (joinUp ts)) = joinUp ts := by
    unfold replaceCharJS
    rw [List.map_map]
    refine listMapId _ (fun c hc => ?_)
    obtain ⟨-, hE, he, -⟩ := validUp_props c (joinUp_chars ts c hc)
    simp [Function.comp, hE, he]
  unfold correctOCRDays
  rw [hmap]
  cases hlast : (joinUp ts).getLast? with
  | none => simp [hlast]
  | some c =>
    have hc := listGetLastMem _ _ hlast
    simp [hlast, (validUp_props c (joinUp_chars ts c hc)).2.2.2]

lemma toLower_dayUp (t : Day) : List.map toLowerCh (dayUp t) = dayLow t := by
  cases t <;> decide

lemma toLower_joinUp (ts : List Day) : toLowerJS (joinUp ts) = joinLow ts := by
  induction ts with
  | nil => rfl
  | cons t ts ih =>
    rw [joinUp_cons, joinLow_cons]
    unfold toLowerJS at ih ⊢
    rw [List.map_append, ih, toLower_dayUp t]

lemma lowerOf_joinUp (ts : List Day) : lowerOf (joinUp ts) = joinLow ts := by
  unfold lowerOf
  rw [removeSpaces_joinUp, correct_joinUp, toLower_joinUp]

lemma combLookup_key_val (l v : List Char) (h : combLookup l = some v) :
    (l = str "mwf" ∧ v = str "MWF") ∨ (l = str "mw" ∧ v = str "MW") ∨
    (l = str "tuth" ∧ v = str "TuTh") ∨ (l = str "tth" ∧ v = str "TuTh") ∨
    (l = str "wf" ∧ v = str "WF") ∨ (l = str "mf" ∧ v = str "MF") ∨
    (l = str "mwth" ∧ v = str "MWTh") ∨ (l = str "twth" ∧ v = str "TuWTh") ∨
    (l = str "mtwthf" ∧ v = str "MTuWThF") ∨ (l = str "mtuthf" ∧ v = str "MTuThF") := by
  by_cases e1 : l = str "mwf"
  · subst e1
    rw [show combLookup (str "mwf") = some (str "MWF") from by decide] at h
    exact Or.inl ⟨rfl, (Option.some_inj.mp h).symm⟩
  by_cases e2 : l = str "mw"
  · subst e2
    rw [show combLookup (str "mw") = some (str "MW") from by decide] at h
    exact Or.inr (Or.inl ⟨rfl, (Option.some_inj.mp h).symm⟩)
  by_cases e3 : l = str "tuth"
  · subst e3
    rw [show combLookup (str "tuth") = some (str "TuTh") from by decide] at h
    exact Or.inr (Or.inr (Or.inl ⟨rfl, (Option.some_inj.mp h).symm⟩))
  by_cases e4 : l = str "tth"
  · subst e4
    rw [show combLookup (str "tth") = some (str "TuTh") from by decide] at h
    exact Or.inr (Or.inr (Or.inr (Or.inl ⟨rfl, (Option.some_inj.mp h).symm⟩)))
  by_cases e5 : l = str "wf"
  · subst e5
    rw [show combLookup (str "wf") = some (str "WF") from by decide] at h
    exact Or.inr (Or.inr (Or.inr (Or.inr (Or.inl ⟨rfl, (Option.some_inj.mp h).symm⟩))))
  by_cases e6 : l = str "mf"
  · subst e6
    rw [show combLookup (str "mf") = some (str "MF") from by decide] at h
    exact Or.inr (Or.inr (Or.inr (Or.inr (Or.inr (Or.inl
      ⟨rfl, (Option.some_inj.mp h).symm⟩)))))
  by_cases e7 : l = str "mwth"
  · subst e7
    rw [show combLookup (str "mwth") = some (str "MWTh") from by decide] at h
    exact Or.inr (Or.inr (Or.inr (Or.inr (Or.inr (Or.inr (Or.inl
      ⟨rfl, (Option.some_inj.mp h).symm⟩))))))
  by_cases e8 : l = str "twth"
  · subst e8
    rw [show combLookup (str "twth") = some (str "TuWTh") from by decide] at h
    exact Or.inr (Or.inr (Or.inr (Or.inr (Or.inr (Or.inr (Or.inr (Or.inl
      ⟨rfl, (Option.some_inj.mp h).symm⟩)))))))
  by_cases e9 : l = str "mtwthf"
  · subst e9
    rw [show combLookup (str "mtwthf") = some (str "MTuWThF") from by decide] at h
    exact Or.inr (Or.inr (Or.inr (Or.inr (Or.inr (Or.inr (Or.inr (Or.inr (Or.inl
      ⟨rfl, (Option.some_inj.mp h).symm⟩))))))))
  by_cases e10 : l = str "mtuthf"
  · subst e10
    rw [show combLookup (str "mtuthf") = some (str "MTuThF") from by decide] at h
    exact Or.inr (Or.inr (Or.inr (Or.inr (Or.inr (Or.inr (Or.inr (Or.inr (Or.inr
      ⟨rfl, (Option.some_inj.mp h).symm⟩))))))))
  exfalso
  have hnone : combLookup l = none := by
    unfold combLookup
    simp only [beq_iff_eq, e1, e2, e3, e4, e5, e6, e7, e8, e9, e10, if_false]
  rw [hnone] at h
  exact Option.noConfusion h

lemma twoCharDay_key_val (c d : Char) (t : List Char) (h : twoCharDay c d = some t) :
    (c = 't' ∧ d = 'u' ∧ t = str "Tu") ∨ (c = 't' ∧ d = 'h' ∧ t = str "Th") ∨
    (c = 's' ∧ d = 'a' ∧ t = str "Sa") ∨ (c = 's' ∧ d = 'u' ∧ t = str "Su") := by
  unfold twoCharDay at h
  split_ifs at h with h1 h2 h3 h4
  · simp only [Bool.and_eq_true, beq_iff_eq] at h1
    exact Or.inl ⟨h1.1, h1.2, (Option.some_inj.mp h).symm⟩
  · simp only [Bool.and_eq_true, beq_iff_eq] at h2
    exact Or.inr (Or.inl ⟨h2.1, h2.2, (Option.some_inj.mp h).symm⟩)
  · simp only [Bool.and_eq_true, beq_iff_eq] at h3
    exact Or.inr (Or.inr (Or.inl ⟨h3.1, h3.2, (Option.some_inj.mp h).symm⟩))
  · simp only [Bool.and_eq_true, beq_iff_eq] at h4
    exact Or.inr (Or.inr (Or.inr ⟨h4.1, h4.2, (Option.some_inj.mp h).symm⟩))

/-- Every output of the rebuild loop is a concatenation of canonical weekday
codes. -/
theorem rebuild_canon : ∀ l : List Char,
    ∃ ts : List Day, normalizeDaysRebuild l = joinUp ts
  | [] => ⟨[], rfl⟩
  | [c] => by
    by_cases hm : c = 'm'
    · exact ⟨[Day.M], by simp [normalizeDaysRebuild, oneCharDay, hm, str, dayUp]⟩
    by_cases hw : c = 'w'
    · exact ⟨[Day.W], by simp [normalizeDaysRebuild, oneCharDay, hw, str, dayUp]⟩
    by_cases hf : c = 'f'
    · exact ⟨[Day.F], by simp [normalizeDaysRebuild, oneCharDay, hf, str, dayUp]⟩
    exact ⟨[], by simp [normalizeDaysRebuild, oneCharDay, hm, hw, hf]⟩
  | c :: d :: rest => by
    obtain ⟨ts1, h1⟩ := rebuild_canon rest
    obtain ⟨ts2, h2⟩ := rebuild_canon (d :: rest)
    cases htw : twoCharDay c d with
    | some t =>
      have hstep : normalizeDaysRebuild (c :: d :: rest) =
          t ++ normalizeDaysRebuild rest := by
        rw [normalizeDaysRebuild.eq_3, htw]
      rcases twoCharDay_key_val c d t htw with ⟨-, -, ht⟩ | ⟨-, -, ht⟩ | ⟨-, -, ht⟩ | ⟨-, -, ht⟩
      · exact ⟨Day.Tu :: ts1, by rw [hstep, h1, ht]; simp [dayUp, str]⟩
      · exact ⟨Day.Th :: ts1, by rw [hstep, h1, ht]; simp [dayUp, str]⟩
      · exact ⟨Day.Sa :: ts1, by rw [hstep, h1, ht]; simp [dayUp, str]⟩
      · exact ⟨Day.Su :: ts1, by rw [hstep, h1, ht]; simp [dayUp, str]⟩
    | none =>
      have hstep : normalizeDaysRebuild (c :: d :: rest) =
          oneCharDay c ++ normalizeDaysRebuild (d :: rest) := by
        rw [normalizeDaysRebuild.eq_3, htw]
      by_cases hm : c = 'm'
      · exact ⟨Day.M :: ts2, by rw [hstep, h2]; simp [oneCharDay, hm, str, dayUp]⟩
      by_cases hw : c = 'w'
      · exact ⟨Day.W :: ts2, by rw [hstep, h2]; simp [oneCharDay, hw, str, dayUp]⟩
      by_cases hf : c = 'f'
      · exact ⟨Day.F :: ts2, by rw [hstep, h2]; simp [oneCharDay, hf, str, dayUp]⟩
      · exact ⟨ts2, by rw [hstep, h2]; simp [oneCharDay, hm, hw, hf]⟩

/-- `normalizeDays` fixes every concatenation of canonical weekday codes. -/
theorem normalizeDays_joinUp (ts : List Day) :
    normalizeDays (joinUp ts) = joinUp ts := by
  by_cases hts : ts = []
  · subst hts; rfl
  · have hne : joinUp ts ≠ [] := fun h => hts ((joinUp_eq_nil_iff ts).mp h)
    have hnd : normalizeDays (joinUp ts) =
        (match combLookup (joinLow ts) with
         | some v => v
         | none =>
           if normalizeDaysRebuild (joinLow ts) = [] then joinUp ts
           else normalizeDaysRebuild (joinLow ts)) := by
      rw [normalizeDays, if_neg hne, lowerOf_joinUp]
    cases hc : combLookup (joinLow ts) with
    | none =>
      rw [hnd, hc, rebuild_joinLow ts, if_neg hne]
    | some v =>
      rw [hnd, hc]
      have hrw : normalizeDaysRebuild (joinLow ts) = joinUp ts := rebuild_joinLow ts
      have hlw : toLowerJS (joinUp ts) = joinLow ts := toLower_joinUp ts
      rcases combLookup_key_val _ _ hc with
        ⟨hl, hv⟩ | ⟨hl, hv⟩ | ⟨hl, hv⟩ | ⟨hl, hv⟩ | ⟨hl, hv⟩ |
        ⟨hl, hv⟩ | ⟨hl, hv⟩ | ⟨hl, hv⟩ | ⟨hl, hv⟩ | ⟨hl, hv⟩
      -- good keys: the rebuilt value of the key equals the mapped value
      · rw [hv, ← hrw, hl]; decide
      · rw [hv, ← hrw, hl]; decide
      · rw [hv, ← hrw, hl]; decide
      · -- bad key "tth": the canonical string would have to be "Th",
        -- whose lowercase is "th" ≠ "tth"
        exfalso
        have hup : joinUp ts = str "Th" := by rw [← hrw, hl]; decide
        rw [hup] at hlw
        rw [hl] at hlw
        exact absurd hlw (by decide)
      · rw [hv, ← hrw, hl]; decide
      · rw [hv, ← hrw, hl]; decide
      · rw [hv, ← hrw, hl]; decide
      · exfalso
        have hup : joinUp ts = str "WTh" := by rw [← hrw, hl]; decide
        rw [hup] at hlw
        rw [hl] at hlw
        exact absurd hlw (by decide)
      · exfalso
        have hup : joinUp ts = str "MWThF" := by rw [← hrw, hl]; decide
        rw [hup] at hlw
        rw [hl] at hlw
        exact absurd hlw (by decide)
      · rw [hv, ← hrw, hl]; decide

/-- C7 -- The day-token normalizer is idempotent: normalizing twice equals
normalizing once, for every input string. -/
theorem normalizeDays_idempotent (s : List Char) :
    normalizeDays (normalizeDays s) = normalizeDays s := by
  by_cases hs : s = []
  · subst hs; rfl
  · have hnd : normalizeDays s =
        (match combLookup (lowerOf s) with
         | some v => v
         | none =>
           if normalizeDaysRebuild (lowerOf s) = [] then s
           else normalizeDaysRebuild (lowerOf s)) := by
      rw [normalizeDays, if_neg hs]
    cases hc : combLookup (lowerOf s) with
    | some v =>
      have hv : normalizeDays s = v := by rw [hnd, hc]
      rw [hv]
      rcases combLookup_key_val _ _ hc with
        ⟨-, hval⟩ | ⟨-, hval⟩ | ⟨-, hval⟩ | ⟨-, hval⟩ | ⟨-, hval⟩ |
        ⟨-, hval⟩ | ⟨-, hval⟩ | ⟨-, hval⟩ | ⟨-, hval⟩ | ⟨-, hval⟩ <;>
        rw [hval] <;> decide
    | none =>
      by_cases hr : normalizeDaysRebuild (lowerOf s) = []
      · have hfix : normalizeDays s = s := by rw [hnd, hc, if_pos hr]
        rw [hfix]
        exact hfix
      · have hreb : normalizeDays s = normalizeDaysRebuild (lowerOf s) := by
          rw [hnd, hc, if_neg hr]
        obtain ⟨ts, hts⟩ := rebuild_canon (lowerOf s)
        rw [hreb, hts]
        exact normalizeDays_joinUp ts

/-- C8 (amended) -- Every normalizer output is either a concatenation of
canonical weekday codes or the original input returned unchanged. -/
theorem normalizeDays_canon_or_id (s : List Char) :
    (∃ ts : List Day, normalizeDays s = joinUp ts) ∨ normalizeDays s = s := by
  by_cases hs : s = []
  · exact Or.inl ⟨[], by subst hs; rfl⟩
  · have hnd : normalizeDays s =
        (match combLookup (lowerOf s) with
         | some v => v
         | none =>
           if normalizeDaysRebuild (lowerOf s) = [] then s
           else normalizeDaysRebuild (lowerOf s)) := by
      rw [normalizeDays, if_neg hs]
    cases hc : combLookup (lowerOf s) with
    | some v =>
      have hv : normalizeDays s = v := by rw [hnd, hc]
      left
      rcases combLookup_key_val _ _ hc with
        ⟨-, hval⟩ | ⟨-, hval⟩ | ⟨-, hval⟩ | ⟨-, hval⟩ | ⟨-, hval⟩ |
        ⟨-, hval⟩ | ⟨-, hval⟩ | ⟨-, hval⟩ | ⟨-, hval⟩ | ⟨-, hval⟩
      · exact ⟨[Day.M, Day.W, Day.F], by rw [hv, hval]; decide⟩
      · exact ⟨[Day.M, Day.W], by rw [hv, hval]; decide⟩
      · exact ⟨[Day.Tu, Day.Th], by rw [hv, hval]; decide⟩
      · exact ⟨[Day.Tu, Day.Th], by rw [hv, hval]; decide⟩
      · exact ⟨[Day.W, Day.F], by rw [hv, hval]; decide⟩
      · exact ⟨[Day.M, Day.F], by rw [hv, hval]; decide⟩
      · exact ⟨[Day.M, Day.W, Day.Th], by rw [hv, hval]; decide⟩
      · exact ⟨[Day.Tu, Day.W, Day.Th], by rw [hv, hval]; decide⟩
      · exact ⟨[Day.M, Day.Tu, Day.W, Day.Th, Day.F], by rw [hv, hval]; decide⟩
      · exact ⟨[Day.M, Day.Tu, Day.Th, Day.F], by rw [hv, hval]; decide⟩
    | none =>
      by_cases hr : normalizeDaysRebuild (lowerOf s) = []
      · exact Or.inr (by rw [hnd, hc, if_pos hr])
      · obtain ⟨ts, hts⟩ := rebuild_canon (lowerOf s)
        exact Or.inl ⟨ts, by rw [hnd, hc, if_neg hr, hts]⟩

lemma joinUp_eq_single_M (ts : List Day) (h : joinUp ts = str "M") :
    ts = [Day.M] := by
  cases ts with
  | nil => simp [str] at h
  | cons t ts' =>
    cases t
    case M =>
      simp only [joinUp_cons, dayUp, str] at h
      have h2 : joinUp ts' = [] := by
        have := congrArg List.tail h
        simpa using this
      have h3 : ts' = [] := (joinUp_eq_nil_iff ts').mp h2
      rw [h3]
    all_goals simp [dayUp, str] at h

lemma joinUp_eq_MM (ts : List Day) (h : joinUp ts = str "MM") :
    ts = [Day.M, Day.M] := by
  cases ts with
  | nil => simp [str] at h
  | cons t ts' =>
    cases t
    case M =>
      simp only [joinUp_cons, dayUp, str] at h
      have h2 : joinUp ts' = str "M" := by
        have := congrArg List.tail h
        simpa [str] using this
      have h3 : ts' = [Day.M] := joinUp_eq_single_M ts' h2
      rw [h3]
    all_goals simp [dayUp, str] at h

/-!
## Concrete records for the end-to-end scenario
-/

/-- The three-line WebReg excerpt of the end-to-end scenario. -/
def c1Input : List Char :=
  str "CSE 100\tAdvanced Data Structures\tA00\tLE\tSahoo, Debashis\tL\t4.00\tMWF\t9:00a-9:50a\tPETER\t108\nA01\tDI\tW\t8:00p-8:50p\tPETER\t108\nFinal Exam\tFI\tW 03/18/2026\t8:00a-10:59a\tPETER\t108"

/-- The Lecture record the parser produces for the main-course line. -/
def cse100Lecture : CourseEvent :=
  { courseCode := str "CSE 100", courseTitle := str "Advanced Data Structures",
    sessionType := str "Lecture", sectionCode := str "A00",
    instructor := str "Sahoo, Debashis", days := str "MWF",
    startTime := str "9:00am", endTime := str "9:50am",
    location := str "PETER 108", building := str "PETER", room := str "108",
    finalDate := [], finalDay := [], quarter := str "Winter",
    year := str "2026", units := [] }

/-- The Discussion record for the secondary-session line. -/
def cse100Discussion : CourseEvent :=
  { courseCode := str "CSE 100", courseTitle := str "Advanced Data Structures",
    sessionType := str "Discussion", sectionCode := str "A01",
    instructor := str "Sahoo, Debashis", days := str "W",
    startTime := str "8:00pm", endTime := str "8:50pm",
    location := str "PETER 108", building := str "PETER", room := str "108",
    finalDate := [], finalDay := [], quarter := str "Winter",
    year := str "2026", units := [] }

/-- The Final Exam record for the final-exam line. -/
def cse100Final : CourseEvent :=
  { courseCode := str "CSE 100", courseTitle := str "Advanced Data Structures",
    sessionType := str "Final Exam", sectionCode := str "A01",
    instructor := str "Sahoo, Debashis", days := str "W",
    startTime := str "8:00am", endTime := str "10:59am",
    location := str "PETER 108", building := str "PETER", room := str "108",
    finalDate := str "03/18/2026", finalDay := str "W", quarter := str "Winter",
    year := str "2026", units := [] }

/-!
## Spec-modelled text escaping (Calendar Document Builder, spec section 4.7)

The repository's serializer interpolates `getEventDescription` output into the
`DESCRIPTION:` line verbatim (scheduleParser.js line 84 says the newline-joined
text "will be escaped later", but no escaping routine exists anywhere in the
source).  The following two functions follow the spec's words — backslash
first, then semicolon, comma, and every line-break variant — for comparison
with the code's identity serialization.
-/

/-- Modelled from the spec: the Calendar Document Builder's text escaping
(absent from the code). -/
def escapeTextSpec : List Char → List Char
  | [] => []
  | '\\' :: r => '\\' :: '\\' :: escapeTextSpec r
  | ';' :: r => '\\' :: ';' :: escapeTextSpec r
  | ',' :: r => '\\' :: ',' :: escapeTextSpec r
  | '\r' :: '\n' :: r => '\\' :: 'n' :: escapeTextSpec r
  | '\n' :: r => '\\' :: 'n' :: escapeTextSpec r
  | '\r' :: r => '\\' :: 'n' :: escapeTextSpec r
  | c :: r => c :: escapeTextSpec r

/-- Modelled from the spec: the inverse unescaping used when re-scanning a
Calendar Document. -/
def unescapeTextSpec : List Char → List Char
  | [] => []
  | '\\' :: '\\' :: r => '\\' :: unescapeTextSpec r
  | '\\' :: ';' :: r => ';' :: unescapeTextSpec r
  | '\\' :: ',' :: r => ',' :: unescapeTextSpec r
  | '\\' :: 'n' :: r => '\n' :: unescapeTextSpec r
  | c :: r => c :: unescapeTextSpec r

set_option maxHeartbeats 4000000 in
set_option maxRecDepth 100000 in
/-- C1 -- Parsing the three-line WebReg excerpt for Winter 2026 yields exactly
the Lecture (MWF 9:00am-9:50am), the Discussion (W 8:00pm-8:50pm, section
A01), and the Final Exam (dated 03/18/2026, section A01 inherited from the
Discussion); and synthesizing the Final Exam record produces a single
non-recurring calendar event dated exactly 2026-03-18. -/
theorem C1_end_to_end :
    parseTextToEvents c1Input (str "Winter") (str "2026") =
      [cse100Lecture, cse100Discussion, cse100Final] ∧
    cse100Lecture.sessionType = str "Lecture" ∧
    cse100Lecture.days = str "MWF" ∧
    cse100Lecture.startTime = str "9:00am" ∧
    cse100Lecture.endTime = str "9:50am" ∧
    cse100Discussion.sessionType = str "Discussion" ∧
    cse100Discussion.days = str "W" ∧
    cse100Discussion.startTime = str "8:00pm" ∧
    cse100Discussion.endTime = str "8:50pm" ∧
    cse100Discussion.sectionCode = str "A01" ∧
    cse100Final.sessionType = str "Final Exam" ∧
    cse100Final.finalDate = str "03/18/2026" ∧
    cse100Final.sectionCode = str "A01" ∧
    (createFinalExamEvent cse100Final (str "Winter") (str "2026")).isSome = true ∧
    substrIn (str "DTSTART;TZID=America/Los_Angeles:20260318T080000")
      ((createFinalExamEvent cse100Final (str "Winter") (str "2026")).getD []) = true ∧
    substrIn (str "RRULE")
      ((createFinalExamEvent cse100Final (str "Winter") (str "2026")).getD []) = false := by
  decide

/-- C8 (counterexample) -- The claim "every normalized output is an ordered
concatenation of weekday codes with no duplicates" fails at input "mm":
the normalizer returns "MM", whose only tokenization is [M, M]. -/
theorem C8_counterexample :
    ¬ ∃ ts : List Day, normalizeDays (str "mm") = joinUp ts ∧ ts.Nodup := by
  rintro ⟨ts, hjoin, hnodup⟩
  have h1 : normalizeDays (str "mm") = str "MM" := by decide
  rw [h1] at hjoin
  have h2 : ts = [Day.M, Day.M] := joinUp_eq_MM ts hjoin.symm
  subst h2
  simp at hnodup

lemma findFirstWeekdayInRange_none (w : List Char) :
    findFirstWeekdayInRange w none none = none := by
  unfold findFirstWeekdayInRange
  cases weekdayCodeNum w <;> rfl

lemma foldlConstList {α β : Type} (f : List β → α → List β)
    (hf : ∀ acc a, f acc a = acc) : ∀ (l : List α) (acc : List β),
    l.foldl f acc = acc := by
  intro l
  induction l with
  | nil => intro acc; rfl
  | cons a t ih => intro acc; rw [List.foldl_cons, hf]; exact ih acc

/-- The weekly-event synthesizer never emits an event: the destructured
`startDate`/`endDate` are `undefined`, so no first occurrence is ever found. -/
lemma createWeeklyEvents_empty (e : CourseEvent) (q y : List Char) :
    createWeeklyEvents e q y = [] := by
  simp only [createWeeklyEvents]
  generalize parseWeekdays _ = ws
  split
  · rfl
  · exact foldlConstList _ (fun acc a => by rw [findFirstWeekdayInRange_none a]) ws []

/-- C2 -- Weekly recurring synthesis is broken by method shadowing: the class
defines `getQuarterDates` twice and the surviving definition returns
`{start, recurringStart, end}` strings (Fall: recurring start 09/29, end
12/13), so `createWeeklyEvents`' destructuring of `{startDate, endDate}`
yields `undefined` and no recurring event — in particular no Friday event with
a first occurrence and an UNTIL date — is ever synthesized. -/
theorem C2_weekly_generation_returns_nothing :
    createWeeklyEvents cse100Lecture (str "Fall") (str "2025") = [] ∧
    (∀ (e : CourseEvent) (q y : List Char), createWeeklyEvents e q y = []) ∧
    getQuarterDates (str "Fall") (str "2025") =
      ⟨str "09/25/2025", str "09/29/2025", str "12/13/2025"⟩ :=
  ⟨createWeeklyEvents_empty _ _ _, createWeeklyEvents_empty, by decide⟩

/-- C3 (amended) -- Every under-length input takes the emergency-fallback
path, producing the fixed placeholder record "EXAMPLE 101" rather than a
distinguishable cannot-parse result. -/
theorem C3_underlength_emergency_fallback :
    (∀ (s q y : List Char), s.length < 50 →
      parseTextToEvents s q y = createEmergencyFallback q y) ∧
    (∀ q y : List Char,
      (createEmergencyFallback q y).map (·.courseCode) = [str "EXAMPLE 101"] ∧
      (createEmergencyFallback q y).map (·.courseTitle) = [str "OCR Parsing Failed"] ∧
      (createEmergencyFallback q y).length = 1) := by
  constructor
  · intro s q y h
    unfold parseTextToEvents
    rw [if_pos h]
  · intro q y
    exact ⟨rfl, rfl, rfl⟩

/-- C3 (counterexample) -- The empty input is under-length, yet the parse
returns a non-empty list containing a fabricated record whose course code
does not occur in the input. -/
theorem C3_counterexample :
    (str "").length < 50 ∧
    parseTextToEvents (str "") (str "Fall") (str "2025") ≠ [] ∧
    ((parseTextToEvents (str "") (str "Fall") (str "2025")).getD 0 {}).courseCode =
      str "EXAMPLE 101" ∧
    substrIn (str "EXAMPLE 101") (str "") = false := by
  refine ⟨by decide, ?_, by decide, by decide⟩
  decide

/-- C3 witness. -/
theorem C3_witness :
    (str "abc").length < 50 ∧
    parseTextToEvents (str "abc") (str "Fall") (str "2025") =
      createEmergencyFallback (str "Fall") (str "2025") :=
  ⟨by decide, C3_underlength_emergency_fallback.1 _ _ _ (by decide)⟩

/-- C4 -- Records missing a time-of-day are excluded from the serialized
calendar output entirely, and records missing a day pattern contribute no
event (no synthesized event is derived from a guessed day or time). -/
theorem C4_incomplete_records_excluded :
    (∀ (e : CourseEvent) (q y : List Char), (e.startTime = [] ∨ e.endTime = []) →
      blocksForEvent e q y = []) ∧
    (∀ (e : CourseEvent) (q y : List Char), e.days = [] →
      getNormalizedSessionType e ≠ str "Final Exam" →
      blocksForEvent e q y = []) := by
  constructor
  · intro e q y h
    unfold blocksForEvent
    rcases h with h | h <;> simp [h]
  · intro e q y _hd hfe
    unfold blocksForEvent
    split
    · rfl
    · have hb : (getNormalizedSessionType e == str "Final Exam") = false :=
        beq_eq_false_iff_ne.mpr hfe
      rw [if_neg (by simp [hb])]
      split
      · simp [createWeeklyEvents_empty]
      · rfl

/-- A to-be-announced record: a Discussion with no start or end time. -/
def tbaDiscussion : CourseEvent :=
  { courseCode := str "CSE 105", sessionType := str "Discussion",
    days := str "TBA", startTime := [], endTime := [],
    location := str "TBA", quarter := str "Fall", year := str "2025" }

/-- A record with times but no day pattern. -/
def noDayLecture : CourseEvent :=
  { courseCode := str "CSE 105", sessionType := str "Lecture",
    days := [], startTime := str "5:00pm", endTime := str "6:20pm",
    location := str "TBA", quarter := str "Fall", year := str "2025" }

/-- C4 witness. -/
theorem C4_witness :
    (tbaDiscussion.startTime = [] ∨ tbaDiscussion.endTime = []) ∧
    blocksForEvent tbaDiscussion (str "Fall") (str "2025") = [] ∧
    noDayLecture.days = [] ∧
    getNormalizedSessionType noDayLecture ≠ str "Final Exam" ∧
    blocksForEvent noDayLecture (str "Fall") (str "2025") = [] :=
  ⟨Or.inl rfl,
   C4_incomplete_records_excluded.1 tbaDiscussion _ _ (Or.inl rfl),
   rfl,
   by decide,
   C4_incomplete_records_excluded.2 noDayLecture _ _ rfl (by decide)⟩

set_option maxRecDepth 100000 in
/-- C5 -- The description of the synthesized final-exam event is embedded in
the serialized document verbatim: it still contains a raw comma and raw
newlines, the code applies no escaping (the emitted `DESCRIPTION:` line is the
identity embedding of the text), while the spec-modelled escape would alter
the text — and that spec-modelled escape does round-trip. -/
theorem C5_description_serialized_unescaped :
    (',' ∈ getEventDescription cse100Final ∧ '\n' ∈ getEventDescription cse100Final) ∧
    substrIn (str "DESCRIPTION:" ++ getEventDescription cse100Final)
      ((createFinalExamEvent cse100Final (str "Winter") (str "2026")).getD []) = true ∧
    escapeTextSpec (getEventDescription cse100Final) ≠ getEventDescription cse100Final ∧
    unescapeTextSpec (escapeTextSpec (getEventDescription cse100Final)) =
      getEventDescription cse100Final := by
  refine ⟨⟨by decide, by decide⟩, by decide, by decide, by decide⟩

/-- The shape "hour digits, colon, two minute digits, meridiem letter, m". -/
def IsTimeShape (s : List Char) : Prop :=
  ∃ (hd : List Char) (m1 m2 p : Char),
    s = hd ++ [':', m1, m2, p, 'm'] ∧ hd ≠ [] ∧
    (∀ c ∈ hd, isDigitCh c = true) ∧ isDigitCh m1 = true ∧ isDigitCh m2 = true ∧
    (p = 'a' ∨ p = 'p')

lemma natRepr_digits : ∀ h : Nat, h < 100 →
    natRepr h ≠ [] ∧ ∀ c ∈ natRepr h, isDigitCh c = true := by decide

lemma consumeTimeCompG_props (l : List Char) (h1 : Nat) (m1 m2 p : Char)
    (rest : List Char)
    (h : consumeTimeCompG l = some (h1, m1, m2, p, rest)) :
    h1 < 100 ∧ isDigitCh m1 = true ∧ isDigitCh m2 = true ∧ (p = 'a' ∨ p = 'p') := by
  cases l with
  | nil => exact Option.noConfusion h
  | cons a rest1 =>
    simp only [consumeTimeCompG] at h
    split_ifs at h with ha
    · have hbound : a.toNat - 48 ≤ 9 := by
        unfold isDigitCh at ha
        simp only [Bool.and_eq_true, decide_eq_true_eq] at ha
        omega
      split at h
      · rename_i b m1x m2x px rest2
        split_ifs at h with hcond
        · simp only [Bool.and_eq_true, decide_eq_true_eq] at hcond
          obtain ⟨⟨⟨hb, hm1⟩, hm2⟩, hp⟩ := hcond
          have hbb : b.toNat - 48 ≤ 9 := by
            unfold isDigitCh at hb
            simp only [Bool.and_eq_true, decide_eq_true_eq] at hb
            omega
          simp only [Option.some_inj, Prod.mk.injEq] at h
          obtain ⟨hh, hm1e, hm2e, hpe, -⟩ := h
          subst hh; subst hm1e; subst hm2e; subst hpe
          refine ⟨by omega, hm1, hm2, ?_⟩
          unfold isApCS at hp
          simp only [Bool.or_eq_true, beq_iff_eq] at hp
          exact hp
        · split at h
          · rename_i n1 n2 q rest3
            split_ifs at h with hcond2
            · simp only [Bool.and_eq_true, decide_eq_true_eq] at hcond2
              obtain ⟨⟨hn1, hn2⟩, hq⟩ := hcond2
              simp only [Option.some_inj, Prod.mk.injEq] at h
              obtain ⟨hh, hm1e, hm2e, hpe, -⟩ := h
              subst hh; subst hm1e; subst hm2e; subst hpe
              refine ⟨by omega, hn1, hn2, ?_⟩
              unfold isApCS at hq
              simp only [Bool.or_eq_true, beq_iff_eq] at hq
              exact hq
          · exact Option.noConfusion h
      · rename_i n1 n2 q rest3
        split_ifs at h with hcond2
        · simp only [Bool.and_eq_true, decide_eq_true_eq] at hcond2
          obtain ⟨⟨hn1, hn2⟩, hq⟩ := hcond2
          simp only [Option.some_inj, Prod.mk.injEq] at h
          obtain ⟨hh, hm1e, hm2e, hpe, -⟩ := h
          subst hh; subst hm1e; subst hm2e; subst hpe
          refine ⟨by omega, hn1, hn2, ?_⟩
          unfold isApCS at hq
          simp only [Bool.or_eq_true, beq_iff_eq] at hq
          exact hq
      · exact Option.noConfusion h

lemma timeRangeMatchAt_props (l : List Char) (g : TimeGroups)
    (h : timeRangeMatchAt l = some g) :
    g.h1 < 100 ∧ isDigitCh g.m1a = true ∧ isDigitCh g.m1b = true ∧
    (g.p1 = 'a' ∨ g.p1 = 'p') ∧
    g.h2 < 100 ∧ isDigitCh g.m2a = true ∧ isDigitCh g.m2b = true ∧
    (g.p2 = 'a' ∨ g.p2 = 'p') := by
  unfold timeRangeMatchAt at h
  cases hc1 : consumeTimeCompG l with
  | none => rw [hc1] at h; exact Option.noConfusion h
  | some t1 =>
    obtain ⟨h1, m1a, m1b, p1, rest⟩ := t1
    rw [hc1] at h
    simp only [] at h
    cases had : dashStep rest with
    | none => rw [had] at h; exact Option.noConfusion h
    | some r =>
      rw [had] at h
      simp only [] at h
      cases hc2 : consumeTimeCompG r with
      | none => rw [hc2] at h; exact Option.noConfusion h
      | some t2 =>
        obtain ⟨h2, m2a, m2b, p2, rest2⟩ := t2
        rw [hc2] at h
        simp only [Option.some_inj] at h
        subst h
        obtain ⟨hb1, hd1a, hd1b, hp1⟩ := consumeTimeCompG_props _ _ _ _ _ _ hc1
        obtain ⟨hb2, hd2a, hd2b, hp2⟩ := consumeTimeCompG_props _ _ _ _ _ _ hc2
        exact ⟨hb1, hd1a, hd1b, hp1, hb2, hd2a, hd2b, hp2⟩

lemma timeRangeMatch_props (l : List Char) (g : TimeGroups)
    (h : timeRangeMatch l = some g) :
    g.h1 < 100 ∧ isDigitCh g.m1a = true ∧ isDigitCh g.m1b = true ∧
    (g.p1 = 'a' ∨ g.p1 = 'p') ∧
    g.h2 < 100 ∧ isDigitCh g.m2a = true ∧ isDigitCh g.m2b = true ∧
    (g.p2 = 'a' ∨ g.p2 = 'p') := by
  induction l with
  | nil => exact Option.noConfusion h
  | cons c cs ih =>
    unfold timeRangeMatch at h
    split at h
    · simp only [Option.some_inj] at h
      subst h
      rename_i g' hat
      exact timeRangeMatchAt_props _ _ hat
    · exact ih h

/-- C10 -- The time-range parser returns either both components in the shape
"hour, colon, two minute digits, meridiem letter, m" or both components
empty; never exactly one populated. -/
theorem C10_time_range_all_or_nothing (tr : List Char) :
    parseTimeRange tr = ([], []) ∨
    (IsTimeShape (parseTimeRange tr).1 ∧ IsTimeShape (parseTimeRange tr).2) := by
  unfold parseTimeRange
  cases hm : timeRangeMatch tr with
  | none => left; rfl
  | some g =>
    right
    obtain ⟨hh1, hm1a, hm1b, hp1, hh2, hm2a, hm2b, hp2⟩ := timeRangeMatch_props _ _ hm
    obtain ⟨hne1, hdig1⟩ := natRepr_digits g.h1 hh1
    obtain ⟨hne2, hdig2⟩ := natRepr_digits g.h2 hh2
    constructor
    · exact ⟨natRepr g.h1, g.m1a, g.m1b, g.p1, rfl, hne1, hdig1, hm1a, hm1b, hp1⟩
    · exact ⟨natRepr g.h2, g.m2a, g.m2b, g.p2, rfl, hne2, hdig2, hm2a, hm2b, hp2⟩

lemma listGetAppendLeft {α : Type} : ∀ (l1 l2 : List α) (j : Nat), j < l1.length →
    (l1 ++ l2).get? j = l1.get? j := by
  intro l1
  induction l1 with
  | nil => intro l2 j h; simp at h
  | cons a t ih =>
    intro l2 j h
    cases j with
    | zero => rfl
    | succ j' => exact ih l2 j' (by simpa using h)

lemma listGetSetNe {α : Type} : ∀ (l : List α) (i j : Nat) (a : α), i ≠ j →
    (l.set i a).get? j = l.get? j := by
  intro l
  induction l with
  | nil => intro i j a _; rfl
  | cons b t ih =>
    intro i j a hne
    cases i with
    | zero =>
      cases j with
      | zero => exact absurd rfl hne
      | succ j' => rfl
    | succ i' =>
      cases j with
      | zero => rfl
      | succ j' => exact ih i' j' a (fun hc => hne (by rw [hc]))

lemma listGetLt {α : Type} : ∀ (l : List α) (j : Nat) (r : α), l.get? j = some r →
    j < l.length := by
  intro l
  induction l with
  | nil => intro j r h; exact Option.noConfusion h
  | cons a t ih =>
    intro j r h
    cases j with
    | zero => simp
    | succ j' => exact Nat.succ_lt_succ (ih j' r h)

set_option maxHeartbeats 1600000 in
/-- Each line-processing step either keeps the emitted list, appends one
record, or backfills the instructor of an already-emitted record whose
instructor was still empty. -/
lemma processLine_events_shape (q y : List Char) (st : ParseState) (l : List Char) :
    (processLine q y st l).events = st.events ∨
    (∃ e, (processLine q y st l).events = st.events ++ [e]) ∨
    (∃ i ev name, st.events.get? i = some ev ∧ ev.instructor = [] ∧
      (processLine q y st l).events = st.events.set i {ev with instructor := name}) := by
  unfold processLine
  dsimp only
  repeat' split
  all_goals
    first
      | exact Or.inl rfl
      | exact Or.inr (Or.inl ⟨_, rfl⟩)
      | (refine Or.inr (Or.inr ⟨_, _, _, ?_, ?_, rfl⟩) <;> assumption)

/-- Processing any further line leaves an already-emitted record with a
non-empty instructor untouched. -/
lemma processLine_preserves_instructor (q y : List Char) (st : ParseState)
    (l : List Char) (j : Nat) (r : CourseEvent)
    (hj : st.events.get? j = some r) (hr : r.instructor ≠ []) :
    (processLine q y st l).events.get? j = some r := by
  have hlen := listGetLt _ _ _ hj
  rcases processLine_events_shape q y st l with hsh | ⟨e, hsh⟩ | ⟨i, ev, name, hget, hinstr, hsh⟩
  · rw [hsh]; exact hj
  · rw [hsh]; exact (listGetAppendLeft st.events _ j hlen).trans hj
  · rw [hsh]
    by_cases hij : i = j
    · exfalso
      rw [hij, hj] at hget
      have : ev = r := Option.some_inj.mp hget.symm
      rw [this] at hinstr
      exact hr hinstr
    · exact (listGetSetNe st.events i j _ hij).trans hj

lemma processLines_preserves_instructor (q y : List Char) :
    ∀ (lines : List (List Char)) (st : ParseState) (j : Nat) (r : CourseEvent),
    st.events.get? j = some r → r.instructor ≠ [] →
    (processLines q y lines st).events.get? j = some r := by
  intro lines
  induction lines with
  | nil => intro st j r hj _; exact hj
  | cons l ls ih =>
    intro st j r hj hr
    exact ih (processLine q y st l) j r
      (processLine_preserves_instructor q y st l j r hj hr) hr

lemma parseMainCourseLine_courseCode_ne (fields : List (List Char))
    (q y : List Char) (p : MainParse)
    (h : parseMainCourseLine fields q y = some p) : p.courseCode ≠ [] := by
  unfold parseMainCourseLine at h
  dsimp only at h
  split at h
  · exact Option.noConfusion h
  · rename_i hcc
    have hp := (Option.some_inj.mp h).symm
    rw [hp]
    exact hcc

set_option maxHeartbeats 1600000 in
/-- C9 -- A main-course line parsed with an empty instructor, immediately
followed by an orphan-instructor line, ends the parse with the emitted Lecture
record's instructor set to that line's trimmed text; and an orphan-instructor
line arriving while the carried instructor is non-empty changes no emitted
record. -/
theorem C9_orphan_instructor_backfill (q y : List Char) :
    (∀ (l0 l1 : List Char) (rest : List (List Char)) (p : MainParse),
      isHeaderLine l0 = false → isOrphanInstructorLine l0 = false →
      isCourseCodeStart ((fieldsOf l0).getD 0 []) = true →
      parseMainCourseLine (fieldsOf l0) q y = some p →
      p.instructor = [] → p.event.instructor = [] →
      isHeaderLine l1 = false → isOrphanInstructorLine l1 = true →
      jsTrim l1 ≠ [] →
      (processLines q y (l0 :: l1 :: rest) {}).events.get? 0 =
        some {p.event with instructor := jsTrim l1}) ∧
    (∀ (st : ParseState) (l : List Char),
      isHeaderLine l = false → isOrphanInstructorLine l = true →
      st.currentInstructor ≠ [] →
      (processLine q y st l).events = st.events) := by
  constructor
  · intro l0 l1 rest p h0h h0o h0c h0p hpi hpe h1h h1o h1t
    have hcc : p.courseCode ≠ [] := parseMainCourseLine_courseCode_ne _ _ _ _ h0p
    have s1 : processLine q y {} l0 =
        { currentCourse := p.courseCode, currentTitle := p.courseTitle,
          currentInstructor := p.instructor,
          currentSection := p.event.sectionCode,
          lastAddedEventIndex := Int.ofNat 0,
          events := [p.event] } := by
      unfold processLine
      dsimp only
      rw [h0h, h0o]
      simp only [Bool.false_eq_true, if_false]
      rw [h0c]
      simp only [if_true, h0p]
      rfl
    have s2 : processLine q y (processLine q y {} l0) l1 =
        { currentCourse := p.courseCode, currentTitle := p.courseTitle,
          currentInstructor := jsTrim l1,
          currentSection := p.event.sectionCode,
          lastAddedEventIndex := Int.ofNat 0,
          events := [{p.event with instructor := jsTrim l1}] } := by
      rw [s1]
      unfold processLine
      dsimp only
      rw [h1h, h1o]
      simp [hcc, hpi, hpe]
    show (processLines q y (l0 :: l1 :: rest) {}).events.get? 0 = _
    have hfold : processLines q y (l0 :: l1 :: rest) {} =
        processLines q y rest (processLine q y (processLine q y {} l0) l1) := rfl
    rw [hfold, s2]
    exact processLines_preserves_instructor q y rest _ 0 _ rfl (by simpa using h1t)
  · intro st l hh ho hi
    unfold processLine
    dsimp only
    rw [hh, ho]
    simp [hi]

/-- The parse of the witness main-course line (instructor field empty). -/
def w9Parse : MainParse :=
  { courseCode := str "CSE 101", courseTitle := str "Intro to CS",
    instructor := [],
    event :=
      { courseCode := str "CSE 101", courseTitle := str "Intro to CS",
        sessionType := str "Lecture", sectionCode := str "A00",
        instructor := [], days := str "MWF",
        startTime := str "9:00am", endTime := str "9:50am",
        location := str "PETER 108", building := str "PETER",
        room := str "108", finalDate := [], finalDay := [],
        quarter := str "Fall", year := str "2025", units := [] } }

set_option maxRecDepth 100000 in
set_option maxHeartbeats 1600000 in
/-- C9 witness. -/
theorem C9_witness :
    (processLines (str "Fall") (str "2025")
        [str "CSE 101\tIntro to CS\tA00\tLE\tMWF\t9:00a-9:50a\tPETER\t108",
         str "Smith, Jane"] {}).events.get? 0 =
      some {w9Parse.event with instructor := jsTrim (str "Smith, Jane")} ∧
    (processLine (str "Fall") (str "2025")
        { currentCourse := str "CSE 101", currentTitle := [],
          currentInstructor := str "Sahoo, Debashis", currentSection := [],
          lastAddedEventIndex := -1, events := [w9Parse.event] }
        (str "Smith, Jane")).events = [w9Parse.event] := by
  constructor
  · exact (C9_orphan_instructor_backfill (str "Fall") (str "2025")).1
      (str "CSE 101\tIntro to CS\tA00\tLE\tMWF\t9:00a-9:50a\tPETER\t108")
      (str "Smith, Jane") [] w9Parse
      (by decide) (by decide) (by decide) (by decide) (by decide) (by decide)
      (by decide) (by decide) (by decide)
  · exact (C9_orphan_instructor_backfill (str "Fall") (str "2025")).2
      _ _ (by decide) (by decide) (by decide)

set_option maxHeartbeats 1600000 in
/-- C6 -- A main-course line with section A00, followed by a secondary-session
line whose parsed section is A01, followed by a final-exam line (which carries
no section field of its own: the final-exam parser only ever uses the carried
section), yields a FinalExam record whose section is A01, not A00. -/
theorem C6_final_exam_inherits_secondary_section
    (l0 l1 l2 q y : List Char) (p : MainParse)
    (h0h : isHeaderLine l0 = false) (h0o : isOrphanInstructorLine l0 = false)
    (h0c : isCourseCodeStart ((fieldsOf l0).getD 0 []) = true)
    (h0p : parseMainCourseLine (fieldsOf l0) q y = some p)
    (_h0s : p.event.sectionCode = str "A00")
    (h1h : isHeaderLine l1 = false) (h1o : isOrphanInstructorLine l1 = false)
    (h1c : isCourseCodeStart ((fieldsOf l1).getD 0 []) = false)
    (h1s : isSectionCodeStart ((fieldsOf l1).getD 0 []) = true)
    (h1sec : (parseSecondarySessionLine (fieldsOf l1) p.courseCode p.courseTitle
        p.instructor q y).sectionCode = str "A01")
    (h2h : isHeaderLine l2 = false) (h2o : isOrphanInstructorLine l2 = false)
    (h2c : isCourseCodeStart ((fieldsOf l2).getD 0 []) = false)
    (h2s : isSectionCodeStart ((fieldsOf l2).getD 0 []) = false)
    (h2m : isMidtermLine l2 = false)
    (h2f : isFinalExamLine l2 = true) :
    ∃ e2 : CourseEvent,
      (processLines q y [l0, l1, l2] {}).events =
        [p.event,
         parseSecondarySessionLine (fieldsOf l1) p.courseCode p.courseTitle
           p.instructor q y,
         e2] ∧
      e2.sessionType = str "Final Exam" ∧
      e2.sectionCode = str "A01" ∧ str "A01" ≠ str "A00" := by
  have hcc : p.courseCode ≠ [] := parseMainCourseLine_courseCode_ne _ _ _ _ h0p
  have s1 : processLine q y {} l0 =
      { currentCourse := p.courseCode, currentTitle := p.courseTitle,
        currentInstructor := p.instructor,
        currentSection := p.event.sectionCode,
        lastAddedEventIndex := Int.ofNat 0,
        events := [p.event] } := by
    unfold processLine
    dsimp only
    rw [h0h, h0o]
    simp only [Bool.false_eq_true, if_false]
    rw [h0c]
    simp only [if_true, h0p]
    rfl
  have s2 : processLine q y (processLine q y {} l0) l1 =
      { currentCourse := p.courseCode, currentTitle := p.courseTitle,
        currentInstructor := p.instructor,
        currentSection := str "A01",
        lastAddedEventIndex := Int.ofNat 0,
        events := [p.event,
          parseSecondarySessionLine (fieldsOf l1) p.courseCode p.courseTitle
            p.instructor q y] } := by
    rw [s1]
    unfold processLine
    dsimp only
    rw [h1h, h1o]
    simp only [Bool.false_eq_true, if_false]
    rw [h1c]
    simp only [Bool.false_eq_true, if_false]
    rw [h1s]
    simp only [Bool.true_and, decide_eq_true_eq]
    rw [if_pos hcc]
    rw [h1sec]
    rw [if_pos (show ¬((str "A01" : List Char) = []) by decide)]
    rfl
  have s3 : processLines q y [l0, l1, l2] {} =
      { currentCourse := p.courseCode, currentTitle := p.courseTitle,
        currentInstructor := p.instructor,
        currentSection := str "A01",
        lastAddedEventIndex := Int.ofNat 0,
        events := [p.event,
          parseSecondarySessionLine (fieldsOf l1) p.courseCode p.courseTitle
            p.instructor q y,
          parseFinalExamLine (fieldsOf l2) p.courseCode p.courseTitle
            p.instructor (str "A01") q y] } := by
    show processLine q y (processLine q y (processLine q y {} l0) l1) l2 = _
    rw [s2]
    unfold processLine
    dsimp only
    rw [h2h, h2o]
    simp only [Bool.false_eq_true, if_false]
    rw [h2c]
    simp only [Bool.false_eq_true, if_false]
    rw [h2s]
    simp only [Bool.false_and, Bool.false_eq_true, if_false]
    rw [h2m]
    simp only [Bool.false_and, Bool.false_eq_true, if_false]
    rw [h2f]
    simp only [Bool.true_and, decide_eq_true_eq]
    rw [if_pos hcc]
    rfl
  refine ⟨parseFinalExamLine (fieldsOf l2) p.courseCode p.courseTitle
    p.instructor (str "A01") q y, ?_, rfl, ?_, by decide⟩
  · rw [s3]
  · show (if (str "A01" : List Char) = [] then [] else str "A01") = str "A01"
    simp

/-- The parse of the end-to-end main-course line, as a `MainParse`. -/
def w6Parse : MainParse :=
  { courseCode := str "CSE 100", courseTitle := str "Advanced Data Structures",
    instructor := str "Sahoo, Debashis", event := cse100Lecture }

set_option maxRecDepth 100000 in
set_option maxHeartbeats 1600000 in
/-- C6 witness. -/
theorem C6_witness :
    ∃ e2 : CourseEvent,
      (processLines (str "Winter") (str "2026")
          [str "CSE 100\tAdvanced Data Structures\tA00\tLE\tSahoo, Debashis\tL\t4.00\tMWF\t9:00a-9:50a\tPETER\t108",
           str "A01\tDI\tW\t8:00p-8:50p\tPETER\t108",
           str "Final Exam\tFI\tW 03/18/2026\t8:00a-10:59a\tPETER\t108"] {}).events =
        [cse100Lecture,
         parseSecondarySessionLine
           (fieldsOf (str "A01\tDI\tW\t8:00p-8:50p\tPETER\t108"))
           (str "CSE 100") (str "Advanced Data Structures")
           (str "Sahoo, Debashis") (str "Winter") (str "2026"),
         e2] ∧
      e2.sessionType = str "Final Exam" ∧
      e2.sectionCode = str "A01" ∧ str "A01" ≠ str "A00" :=
  C6_final_exam_inherits_secondary_section
    (str "CSE 100\tAdvanced Data Structures\tA00\tLE\tSahoo, Debashis\tL\t4.00\tMWF\t9:00a-9:50a\tPETER\t108")
    (str "A01\tDI\tW\t8:00p-8:50p\tPETER\t108")
    (str "Final Exam\tFI\tW 03/18/2026\t8:00a-10:59a\tPETER\t108")
    (str "Winter") (str "2026") w6Parse
    (by decide) (by decide) (by decide) (by decide) (by decide)
    (by decide) (by decide) (by decide) (by decide) (by decide)
    (by decide) (by decide) (by decide) (by decide) (by decide) (by decide)
